import Mathlib

/-!
# Miyoo Mini video driver and LCD2x filter: layout and kernel verification

Shallow embedding of

* `gfx/drivers/miyoomini/sdl_miyoomini_gfx.c`:
  `sdl_miyoomini_clear_border`, `sdl_miyoomini_set_output`;
* `gfx/video_filters/lcd2x.c`: `lcd2x_c16`, `lcd2x_c32`.

Conventions.  C `unsigned` / `uint32_t` values are natural numbers below
`2 ^ 32`; every arithmetic operation of the source that can wrap is followed
by an explicit reduction modulo `2 ^ 32`.  Memory is a map from byte addresses
to byte values; a cell is read modulo `256`.  Pointers are byte addresses and
are not reduced (address arithmetic is assumed not to wrap).
-/

namespace MiyooMini

/-! ## Machine arithmetic -/

/-- Truncation to an unsigned 32-bit value. -/
def u32 (n : Nat) : Nat := n % 2 ^ 32

/-- Unsigned 32-bit subtraction `a - b` (operands already below `2 ^ 32`). -/
def sub32 (a b : Nat) : Nat := (a + 2 ^ 32 - b) % 2 ^ 32

/-! ## Byte-addressed memory -/

/-- Memory: byte address to cell content (a cell is read modulo 256). -/
abbrev Mem := Nat → Nat

/-- Vendor call `MI_SYS_MemsetPa(pa, val, len)`: fill `len` bytes at `pa`. -/
def MI_SYS_MemsetPa (m : Mem) (pa val len : Nat) : Mem :=
  fun a => if pa ≤ a ∧ a < pa + len then val % 256 else m a

/-! ## Driver state (`sdl_miyoomini_gfx.c`) -/

/-- Macro `SDL_MIYOOMINI_WIDTH`. -/
def SDL_MIYOOMINI_WIDTH : Nat := 640

/-- Macro `SDL_MIYOOMINI_HEIGHT`. -/
def SDL_MIYOOMINI_HEIGHT : Nat := 480

/-- The enum `dingux_rs90_softfilter_type` is declared outside the two source
files; only the enumerator `DINGUX_RS90_SOFTFILTER_POINT` is referred to. -/
inductive dingux_rs90_softfilter_type where
  | DINGUX_RS90_SOFTFILTER_POINT
  | other (tag : Nat)
  deriving DecidableEq, Repr

/-- Identities of the six scaler kernels that `scale_func` may point to. -/
inductive scale_kernel where
  | scale1x_n16 | scale1x_n32
  | scale2x_n16 | scale2x_n32
  | scale4x_n16 | scale4x_n32
  deriving DecidableEq, Repr

/-- A surface handle as returned by `GFX_CreateRGBSurface(0, w, h, depth, ...)`. -/
structure SDL_Surface where
  w : Nat
  h : Nat
  depth : Nat
  deriving DecidableEq, Repr

/-- The fields of `struct sdl_miyoomini_video` that take part in output
configuration. -/
structure sdl_miyoomini_video where
  screen : Option SDL_Surface
  content_width : Nat
  content_height : Nat
  frame_width : Nat
  frame_height : Nat
  video_x : Nat
  video_y : Nat
  video_w : Nat
  video_h : Nat
  scale_func : scale_kernel
  softfilter_type : dingux_rs90_softfilter_type
  rgb32 : Bool
  vsync : Bool
  keep_aspect : Bool
  scale_integer : Bool
  menu_active : Bool
  was_in_menu : Bool
  quitting : Bool
  deriving DecidableEq

/-- What the driver takes from `gfx.c` and the vendor SDK: the surface
allocator (which may fail), the whole-framebuffer clear, and the physical
address `finfo.smem_start` of the framebuffer. -/
structure gfx_env where
  GFX_CreateRGBSurface : Nat → Nat → Nat → Option SDL_Surface
  GFX_ClearFrameBuffer : Mem → Mem
  smem_start : Nat

/-! ## `sdl_miyoomini_clear_border` -/

/-- The loop `for (i = n; i > 0; i--, fbPa += ss) if (srl) MI_SYS_MemsetPa(fbPa, 0, srl);`
acting on the pair (memory, `fbPa`). -/
def clear_border_rows (srl ss : Nat) : Nat → Mem × Nat → Mem × Nat
  | 0, s => s
  | i + 1, s =>
    clear_border_rows srl ss i
      ((if srl ≠ 0 then MI_SYS_MemsetPa s.1 s.2 0 srl else s.1), s.2 + ss)

/-- Embedding of `sdl_miyoomini_clear_border(x, y, w, h)`; the result is the
framebuffer memory after the call. -/
def sdl_miyoomini_clear_border (env : gfx_env) (fb : Mem) (x y w h : Nat) : Mem :=
  if x = 0 ∧ y = 0 ∧ w = SDL_MIYOOMINI_WIDTH ∧ h = SDL_MIYOOMINI_HEIGHT then fb
  else if w = 0 ∨ h = 0 then env.GFX_ClearFrameBuffer fb
  else
    let x0 := sub32 SDL_MIYOOMINI_WIDTH (u32 (x + w))
    let y0 := sub32 SDL_MIYOOMINI_HEIGHT (u32 (y + h))
    let sl := u32 (x0 * 4)
    let sr := u32 (x * 4)
    let st := u32 (u32 (y0 * SDL_MIYOOMINI_WIDTH) * 4)
    let sb := u32 (u32 (y * SDL_MIYOOMINI_WIDTH) * 4)
    let srl := u32 (sr + sl)
    let stl := u32 (st + sl)
    let srb := u32 (sr + sb)
    let srbtl := u32 (u32 (srl + sb) + st)
    let sw := u32 (w * 4)
    let ss := u32 (SDL_MIYOOMINI_WIDTH * 4)
    let fbPa := env.smem_start
    let m := if stl ≠ 0 then MI_SYS_MemsetPa fb fbPa 0 stl else fb
    let fbPa := fbPa + u32 (stl + sw)
    let s := clear_border_rows srl ss (sub32 h 1) (m, fbPa)
    let m := if srbtl ≠ 0 then MI_SYS_MemsetPa s.1 s.2 0 srbtl else s.1
    let fbPa := s.2 + u32 (srbtl + sw)
    let s := clear_border_rows srl ss (sub32 h 1) (m, fbPa)
    let m := if srbtl ≠ 0 then MI_SYS_MemsetPa s.1 s.2 0 srbtl else s.1
    let fbPa := s.2 + u32 (srbtl + sw)
    let s := clear_border_rows srl ss (sub32 h 1) (m, fbPa)
    if srb ≠ 0 then MI_SYS_MemsetPa s.1 s.2 0 srb else s.1

/-! ## `sdl_miyoomini_set_output` -/

/-- Local `xmul = (SDL_MIYOOMINI_WIDTH<<16) / width` of `sdl_miyoomini_set_output`. -/
def xmul (width : Nat) : Nat := (SDL_MIYOOMINI_WIDTH <<< 16) / width

/-- Local `ymul = (SDL_MIYOOMINI_HEIGHT<<16) / height`. -/
def ymul (height : Nat) : Nat := (SDL_MIYOOMINI_HEIGHT <<< 16) / height

/-- Local `mul = xmul < ymul ? xmul : ymul`. -/
def mul (width height : Nat) : Nat :=
  if xmul width < ymul height then xmul width else ymul height

/-- Local `mul_int = (mul>>16)`. -/
def mul_int (width height : Nat) : Nat := mul width height >>> 16

/-- Local `scale_mul` after the "Select upscaler to use" block. -/
def scale_mul (vid : sdl_miyoomini_video) (width height : Nat) : Nat :=
  if vid.scale_integer = true ∨
      vid.softfilter_type = dingux_rs90_softfilter_type.DINGUX_RS90_SOFTFILTER_POINT then
    if mul width height ≥ (640 <<< 16) / 256 then 4
    else if mul width height ≥ (640 <<< 16) / 512 then 2
    else 1
  else 1

/-- Embedding of `sdl_miyoomini_set_output(vid, width, height, rgb32)`.
Every field of `vid` that the function assigns is bound to a local of the same
name, in source order (a later binding shadows an earlier one exactly where the
source overwrites the field); the state is assembled from these locals in
`vid'`.  Returns the driver state and the framebuffer memory after the call. -/
def sdl_miyoomini_set_output (env : gfx_env) (vid : sdl_miyoomini_video) (fb : Mem)
    (width height : Nat) (rgb32 : Bool) : sdl_miyoomini_video × Mem :=
  let content_width := width
  let content_height := height
  /- Calculate scaling factor -/
  let xmul := xmul width
  let ymul := ymul height
  let mul_int := mul_int width height
  /- Select upscaler to use -/
  let scale_mul := scale_mul vid width height
  let frame_width := u32 (width * scale_mul)
  let frame_height := u32 (height * scale_mul)
  let scale_func :=
    if scale_mul = 2 then
      (if rgb32 then scale_kernel.scale2x_n32 else scale_kernel.scale2x_n16)
    else if scale_mul = 4 then
      (if rgb32 then scale_kernel.scale4x_n32 else scale_kernel.scale4x_n16)
    else
      (if rgb32 then scale_kernel.scale1x_n32 else scale_kernel.scale1x_n16)
  /- Change to aspect/fullscreen scaler when integer & screen size is over (no crop) -/
  let scale_integer :=
    if vid.scale_integer = true ∧ mul_int = 0 then false else vid.scale_integer
  /- (video_x, video_y, video_w, video_h) -/
  let video : Nat × Nat × Nat × Nat :=
    if scale_integer = true then
      /- Integer Scaling -/
      let video_w := u32 (width * mul_int)
      let video_h := u32 (height * mul_int)
      /- (video_w, video_h) -/
      let wh : Nat × Nat :=
        if vid.keep_aspect = false then
          /- Integer + Fullscreen , keep 4:3 for CRT console emulators -/
          let Wx3 := u32 (video_w * 3)
          let Hx4 := u32 (video_h * 4)
          if Wx3 ≠ Hx4 then
            if Wx3 > Hx4 then (video_w, Wx3 / 4)
            else (Hx4 / 3, video_h)
          else (video_w, video_h)
        else (video_w, video_h)
      let video_x := sub32 SDL_MIYOOMINI_WIDTH wh.1 >>> 1
      let video_y := sub32 SDL_MIYOOMINI_HEIGHT wh.2 >>> 1
      (video_x, video_y, wh.1, wh.2)
    else if vid.keep_aspect = true then
      /- Aspect Scaling -/
      if xmul > ymul then
        let video_w := u32 (width * SDL_MIYOOMINI_HEIGHT) / height
        let video_h := SDL_MIYOOMINI_HEIGHT
        let video_x := sub32 SDL_MIYOOMINI_WIDTH video_w >>> 1
        let video_y := 0
        (video_x, video_y, video_w, video_h)
      else
        let video_w := SDL_MIYOOMINI_WIDTH
        let video_h := u32 (height * SDL_MIYOOMINI_WIDTH) / width
        let video_x := 0
        let video_y := sub32 SDL_MIYOOMINI_HEIGHT video_h >>> 1
        (video_x, video_y, video_w, video_h)
    else
      /- Fullscreen -/
      (0, 0, SDL_MIYOOMINI_WIDTH, SDL_MIYOOMINI_HEIGHT)
  /- Attempt to change video mode: the old surface is released
     (`GFX_FreeSurface`), then `vid->screen` is overwritten -/
  let screen := env.GFX_CreateRGBSurface frame_width frame_height (if rgb32 then 32 else 16)
  let vid' : sdl_miyoomini_video :=
    { vid with
      screen := screen
      content_width := content_width
      content_height := content_height
      frame_width := frame_width
      frame_height := frame_height
      video_x := video.1
      video_y := video.2.1
      video_w := video.2.2.1
      video_h := video.2.2.2
      scale_func := scale_func
      scale_integer := scale_integer }
  /- Check whether selected display mode is valid -/
  match screen with
  | none => (vid', fb)
  | some _ =>
    /- Clear border -/
    (vid', sdl_miyoomini_clear_border env fb vid'.video_x vid'.video_y vid'.video_w vid'.video_h)

/-! ## `lcd2x.c`: memory access -/

/-- Byte load. -/
def load8 (m : Mem) (a : Nat) : Nat := m a % 256

/-- Little-endian `uint16_t` load at byte address `a`. -/
def load16 (m : Mem) (a : Nat) : Nat := load8 m a + 256 * load8 m (a + 1)

/-- Little-endian `uint32_t` load at byte address `a`. -/
def load32 (m : Mem) (a : Nat) : Nat :=
  load8 m a + 256 * load8 m (a + 1) + 65536 * load8 m (a + 2) + 16777216 * load8 m (a + 3)

/-- Little-endian `uint32_t` store of `v` at byte address `a`. -/
def store32 (m : Mem) (a v : Nat) : Mem :=
  fun b =>
    if b = a then v % 256
    else if b = a + 1 then v / 256 % 256
    else if b = a + 2 then v / 65536 % 256
    else if b = a + 3 then v / 16777216 % 256
    else m b

/-! ## `lcd2x_c16` -/

/-- Body of the inner loop of `lcd2x_c16` for loop variables `x`, `dx`, with
`s = (uint32_t*)src`, `d = (uint32_t*)dst` given as byte addresses. -/
def lcd2x_c16_pair (srcm : Mem) (s d dp32 x dx : Nat) (m : Mem) : Mem :=
  let pix := load32 srcm (s + 4 * x)
  let dpix1 := (pix &&& 0xF800) ||| ((pix &&& 0x001F) <<< 16)
  let dpix2 := (pix &&& 0x07E0) ||| u32 (pix <<< 16)
  let dpix3 := ((pix >>> 16) &&& 0xF800) ||| (pix &&& 0x001F0000)
  let dpix4 := ((pix >>> 16) &&& 0x07E0) ||| (pix &&& 0xFFFF0000)
  let m := store32 m (d + 4 * dx) dpix1
  let m := store32 m (d + 4 * u32 (dx + 1)) dpix3
  let m := store32 m (d + 4 * u32 (dx + dp32)) dpix2
  store32 m (d + 4 * u32 (u32 (dx + dp32) + 1)) dpix4

/-- The loop `for (x=dx=0; x<(sw/2); x++, dx+=2)`: the first argument counts
the iterations still to run, the state is `(x, dx, destination memory)`. -/
def lcd2x_c16_pairs (srcm : Mem) (s d dp32 : Nat) : Nat → Nat × Nat × Mem → Nat × Nat × Mem
  | 0, st => st
  | n + 1, st =>
    lcd2x_c16_pairs srcm s d dp32 n
      (u32 (st.1 + 1), u32 (st.2.1 + 2), lcd2x_c16_pair srcm s d dp32 st.1 st.2.1 st.2.2)

/-- One pass of the outer loop body of `lcd2x_c16`: the pair loop, then the
trailing pixel when `sw` is odd. -/
def lcd2x_c16_row (srcm : Mem) (sw dp32 src dst : Nat) (m : Mem) : Mem :=
  let s := src
  let d := dst
  let st := lcd2x_c16_pairs srcm s d dp32 (sw / 2) (0, 0, m)
  let x := st.1
  let dx := st.2.1
  let m := st.2.2
  if sw &&& 1 ≠ 0 then
    let pix16 := load16 srcm (s + 2 * u32 (x * 2))
    let dpix1 := (pix16 &&& 0xF800) ||| ((pix16 &&& 0x001F) <<< 16)
    let dpix2 := (pix16 &&& 0x07E0) ||| u32 (pix16 <<< 16)
    let m := store32 m (d + 4 * dx) dpix1
    store32 m (d + 4 * u32 (dx + dp32)) dpix2
  else m

/-- The loop `for (; sh>0; sh--, src+=sp, dst+=dp*2)` of `lcd2x_c16`. -/
def lcd2x_c16_rows (srcm : Mem) (sw sp dp dp32 : Nat) : Nat → Nat → Nat → Mem → Mem
  | 0, _, _, m => m
  | sh + 1, src, dst, m =>
    lcd2x_c16_rows srcm sw sp dp dp32 sh (src + sp) (dst + u32 (dp * 2))
      (lcd2x_c16_row srcm sw dp32 src dst m)

/-- Embedding of `lcd2x_c16(src, dst, sw, sh, sp, dp)`.  The source buffer is
read from `srcm` at byte address `src`, the destination buffer lives in `dstm`
at byte address `dst` (the two are `__restrict`); the result is the destination
memory after the call. -/
def lcd2x_c16 (srcm : Mem) (src : Nat) (dstm : Mem) (dst : Nat) (sw sh sp dp : Nat) : Mem :=
  if sw = 0 ∨ sh = 0 then dstm
  else
    let swl := u32 (sw * 2)
    let sp := if sp = 0 then swl else sp
    let swl := u32 (swl * 2)
    let dp := if dp = 0 then swl else dp
    let dp32 := dp >>> 2
    lcd2x_c16_rows srcm sw sp dp dp32 sh src dst dstm

/-! ## `lcd2x_c32` -/

/-- Body of the inner loop of `lcd2x_c32`. -/
def lcd2x_c32_pixel (srcm : Mem) (s d dp32 x dx : Nat) (m : Mem) : Mem :=
  let pix := load32 srcm (s + 4 * x)
  let m := store32 m (d + 4 * dx) (pix &&& 0x00FF0000)
  let m := store32 m (d + 4 * u32 (dx + 1)) (pix &&& 0x000000FF)
  let m := store32 m (d + 4 * u32 (dx + dp32)) (pix &&& 0x0000FF00)
  store32 m (d + 4 * u32 (u32 (dx + dp32) + 1)) pix

/-- The loop `for (x=dx=0; x<sw; x++, dx+=2)` of `lcd2x_c32`. -/
def lcd2x_c32_pixels (srcm : Mem) (s d dp32 : Nat) : Nat → Nat × Nat × Mem → Nat × Nat × Mem
  | 0, st => st
  | n + 1, st =>
    lcd2x_c32_pixels srcm s d dp32 n
      (u32 (st.1 + 1), u32 (st.2.1 + 2), lcd2x_c32_pixel srcm s d dp32 st.1 st.2.1 st.2.2)

/-- The loop `for (; sh>0; sh--, src+=sp, dst+=dp*2)` of `lcd2x_c32`. -/
def lcd2x_c32_rows (srcm : Mem) (sw sp dp dp32 : Nat) : Nat → Nat → Nat → Mem → Mem
  | 0, _, _, m => m
  | sh + 1, src, dst, m =>
    lcd2x_c32_rows srcm sw sp dp dp32 sh (src + sp) (dst + u32 (dp * 2))
      (lcd2x_c32_pixels srcm src dst dp32 sw (0, 0, m)).2.2

/-- Embedding of `lcd2x_c32(src, dst, sw, sh, sp, dp)`. -/
def lcd2x_c32 (srcm : Mem) (src : Nat) (dstm : Mem) (dst : Nat) (sw sh sp dp : Nat) : Mem :=
  if sw = 0 ∨ sh = 0 then dstm
  else
    let swl := u32 (sw * 4)
    let sp := if sp = 0 then swl else sp
    let swl := u32 (swl * 2)
    let dp := if dp = 0 then swl else dp
    let dp32 := dp >>> 2
    lcd2x_c32_rows srcm sw sp dp dp32 sh src dst dstm

/-! ## `lcd2x.c`: the filter plugin -/

/-- Record `struct softfilter_thread_data`; pointers are byte addresses. -/
structure softfilter_thread_data where
  out_data : Nat
  in_data : Nat
  out_pitch : Nat
  in_pitch : Nat
  colfmt : Nat
  width : Nat
  height : Nat
  first : Int
  last : Int
  deriving DecidableEq, Repr

/-- Record `struct filter_data`; `workers` is the one-element array allocated
by `lcd2x_generic_create`. -/
structure filter_data where
  threads : Nat
  workers : softfilter_thread_data
  in_fmt : Nat
  deriving DecidableEq, Repr

/-- The two work callbacks of the plugin. -/
inductive lcd2x_work where
  | lcd2x_work_cb_xrgb8888
  | lcd2x_work_cb_rgb565
  deriving DecidableEq, Repr

/-- The fields of `struct softfilter_work_packet`; `work = none` stands for a
callback pointer that is none of the plugin's own. -/
structure softfilter_work_packet where
  work : Option lcd2x_work
  thread_data : Option softfilter_thread_data
  deriving DecidableEq, Repr

/-- Embedding of `lcd2x_generic_input_fmts`.  The constants
`SOFTFILTER_FMT_XRGB8888` and `SOFTFILTER_FMT_RGB565` come from `softfilter.h`,
which is outside the two source files, and are parameters. -/
def lcd2x_generic_input_fmts (SOFTFILTER_FMT_XRGB8888 SOFTFILTER_FMT_RGB565 : Nat) : Nat :=
  SOFTFILTER_FMT_XRGB8888 ||| SOFTFILTER_FMT_RGB565

/-- Embedding of `lcd2x_generic_output_fmts`. -/
def lcd2x_generic_output_fmts (input_fmts : Nat) : Nat := input_fmts

/-- Embedding of `lcd2x_generic_threads`. -/
def lcd2x_generic_threads (filt : filter_data) : Nat := filt.threads

/-- Embedding of `lcd2x_generic_create`.  The two `calloc` calls succeed or
fail as `calloc_filt`, `calloc_workers` say; `none` is the `NULL` result.
Memory from `calloc` is zeroed. -/
def lcd2x_generic_create (calloc_filt calloc_workers : Bool)
    (in_fmt out_fmt max_width max_height threads : Nat) : Option filter_data :=
  if calloc_filt = false then none
  else
    /- Apparently the code is not thread-safe,
       so force single threaded operation... -/
    let filt : filter_data :=
      { threads := 1
        workers := ⟨0, 0, 0, 0, 0, 0, 0, 0, 0⟩
        in_fmt := in_fmt }
    if calloc_workers = false then none
    else some filt

/-- Embedding of `lcd2x_generic_output`. -/
def lcd2x_generic_output (width height : Nat) : Nat × Nat :=
  (u32 (width <<< 1), u32 (height <<< 1))

/-- Embedding of `lcd2x_generic_packets`: returns the instance (whose worker
record is filled in) and `packets[0]`; `packet0` is `packets[0]` before the
call. -/
def lcd2x_generic_packets (SOFTFILTER_FMT_XRGB8888 SOFTFILTER_FMT_RGB565 : Nat)
    (filt : filter_data) (packet0 : softfilter_work_packet)
    (output output_stride input width height input_stride : Nat) :
    filter_data × softfilter_work_packet :=
  let thr : softfilter_thread_data :=
    { filt.workers with
      out_data := output
      in_data := input
      out_pitch := output_stride
      in_pitch := input_stride
      width := width
      height := height }
  let work :=
    if filt.in_fmt = SOFTFILTER_FMT_XRGB8888 then some lcd2x_work.lcd2x_work_cb_xrgb8888
    else if filt.in_fmt = SOFTFILTER_FMT_RGB565 then some lcd2x_work.lcd2x_work_cb_rgb565
    else packet0.work
  ({ filt with workers := thr }, { work := work, thread_data := some thr })

/-! ## Specification of one 2x2 output block -/

/-- The 2x2 block of 16-bit pixels of `out` whose top-left pixel is at byte
address `da` (rows `dpb` bytes apart) is the LCD split of the RGB565 pixel
stored in `srcm` at byte address `sa`. -/
def lcd2x_block16 (srcm out : Mem) (sa da dpb : Nat) : Prop :=
  load16 out da = load16 srcm sa &&& 0xF800 ∧
  load16 out (da + 2) = load16 srcm sa &&& 0x001F ∧
  load16 out (da + dpb) = load16 srcm sa &&& 0x07E0 ∧
  load16 out (da + dpb + 2) = load16 srcm sa

/-- The 2x2 block of 32-bit pixels of `out` whose top-left pixel is at byte
address `da` (rows `dpb` bytes apart) is the LCD split of the XRGB8888 pixel
stored in `srcm` at byte address `sa`. -/
def lcd2x_block32 (srcm out : Mem) (sa da dpb : Nat) : Prop :=
  load32 out da = load32 srcm sa &&& 0x00FF0000 ∧
  load32 out (da + 4) = load32 srcm sa &&& 0x000000FF ∧
  load32 out (da + dpb) = load32 srcm sa &&& 0x0000FF00 ∧
  load32 out (da + dpb + 4) = load32 srcm sa

instance (srcm out : Mem) (sa da dpb : Nat) : Decidable (lcd2x_block16 srcm out sa da dpb) := by
  unfold lcd2x_block16; infer_instance

instance (srcm out : Mem) (sa da dpb : Nat) : Decidable (lcd2x_block32 srcm out sa da dpb) := by
  unfold lcd2x_block32; infer_instance

/-! ## Derived description of the layout, concrete test data -/

/-- Source memory in which every byte is `0xFF`: every RGB565 pixel is white
(`0xFFFF`). -/
def src_white : Mem := fun _ => 255

/-- Destination memory filled with zero bytes. -/
def dst_zero : Mem := fun _ => 0

/-- The destination rectangle `(video_x, video_y, video_w, video_h)` written by
`sdl_miyoomini_set_output`, as a function of the policy flags and content size
(`set_output_fst` proves that this is what the function stores). -/
def layout_rect (vid : sdl_miyoomini_video) (width height : Nat) : Nat × Nat × Nat × Nat :=
  if vid.scale_integer = true ∧ mul_int width height ≠ 0 then
    let video_w := u32 (width * mul_int width height)
    let video_h := u32 (height * mul_int width height)
    let wh : Nat × Nat :=
      if vid.keep_aspect = false then
        if u32 (video_w * 3) ≠ u32 (video_h * 4) then
          if u32 (video_w * 3) > u32 (video_h * 4) then (video_w, u32 (video_w * 3) / 4)
          else (u32 (video_h * 4) / 3, video_h)
        else (video_w, video_h)
      else (video_w, video_h)
    (sub32 640 wh.1 >>> 1, sub32 480 wh.2 >>> 1, wh.1, wh.2)
  else if vid.keep_aspect = true then
    if xmul width > ymul height then
      (sub32 640 (u32 (width * 480) / height) >>> 1, 0, u32 (width * 480) / height, 480)
    else
      (0, sub32 480 (u32 (height * 640) / width) >>> 1, 640, u32 (height * 640) / width)
  else (0, 0, 640, 480)

/-- An environment whose surface allocator always succeeds. -/
def env_ok : gfx_env :=
  { GFX_CreateRGBSurface := fun w h depth => some ⟨w, h, depth⟩
    GFX_ClearFrameBuffer := fun _ => fun _ => 0
    smem_start := 0 }

/-- An environment whose surface allocator always fails. -/
def env_fail : gfx_env :=
  { GFX_CreateRGBSurface := fun _ _ _ => none
    GFX_ClearFrameBuffer := fun _ => fun _ => 0
    smem_start := 0 }

/-- The driver state as `sdl_miyoomini_gfx_init` leaves it for a 16-bit session
(content 640x480, full-display rectangle), with the two aspect flags given. -/
def vid_init (keep_aspect scale_integer : Bool) : sdl_miyoomini_video :=
  { screen := some ⟨640, 480, 16⟩
    content_width := 640, content_height := 480
    frame_width := 640, frame_height := 480
    video_x := 0, video_y := 0, video_w := 640, video_h := 480
    scale_func := scale_kernel.scale1x_n16
    softfilter_type := dingux_rs90_softfilter_type.other 1
    rgb32 := false, vsync := true
    keep_aspect := keep_aspect, scale_integer := scale_integer
    menu_active := false, was_in_menu := false, quitting := false }

/-- A framebuffer content without zero runs aligned to rows. -/
def fb_ramp : Mem := fun a => a % 251

/-! ## Arithmetic of the scale factors -/

theorem shl_w : SDL_MIYOOMINI_WIDTH <<< 16 = 41943040 := by decide

theorem shl_h : SDL_MIYOOMINI_HEIGHT <<< 16 = 31457280 := by decide

theorem mul_int_eq (w h : Nat) : mul_int w h = min (640 / w) (480 / h) := by
  unfold mul_int mul xmul ymul
  rw [shl_w, shl_h, Nat.shiftRight_eq_div_pow]
  have a1 : 41943040 / w / 2 ^ 16 = 640 / w := by
    rw [Nat.div_div_eq_div_mul]; exact Nat.mul_div_mul_right 640 w (by norm_num : 0 < 65536)
  have a2 : 31457280 / h / 2 ^ 16 = 480 / h := by
    rw [Nat.div_div_eq_div_mul]; exact Nat.mul_div_mul_right 480 h (by norm_num : 0 < 65536)
  split
  · rename_i hlt
    rw [a1]
    have : 640 / w ≤ 480 / h := by
      rw [← a1, ← a2]; exact Nat.div_le_div_right (Nat.le_of_lt hlt)
    omega
  · rename_i hlt
    rw [a2]
    have : 480 / h ≤ 640 / w := by
      rw [← a1, ← a2]; exact Nat.div_le_div_right (Nat.le_of_not_lt hlt)
    omega

theorem mul_int_mul_le (w h : Nat) : w * mul_int w h ≤ 640 ∧ h * mul_int w h ≤ 480 := by
  rw [mul_int_eq]
  have h1 : w * (640 / w) ≤ 640 := Nat.mul_div_le 640 w
  have h2 : h * (480 / h) ≤ 480 := Nat.mul_div_le 480 h
  have h3 : w * min (640 / w) (480 / h) ≤ w * (640 / w) := Nat.mul_le_mul_left _ (Nat.min_le_left _ _)
  have h4 : h * min (640 / w) (480 / h) ≤ h * (480 / h) := Nat.mul_le_mul_left _ (Nat.min_le_right _ _)
  omega

theorem aspect_fit_height (w h : Nat) (hw : 1 ≤ w) (hh : 1 ≤ h) (hx : ymul h < xmul w) :
    w * 480 / h ≤ 640 := by
  unfold xmul ymul at hx
  rw [shl_w, shl_h] at hx
  have hlt : w * 480 < 641 * h := by
    by_contra hc
    have hc : 641 * h ≤ w * 480 := Nat.le_of_not_lt hc
    have : 41943040 / w ≤ 31457280 / h := by
      rw [Nat.le_div_iff_mul_le (by omega)]
      have q1 : 41943040 / w * w ≤ 41943040 := Nat.div_mul_le_self _ _
      have q2 : 41943040 / w * h * w ≤ 31457280 * w := by
        calc 41943040 / w * h * w = (41943040 / w * w) * h := by ring
          _ ≤ 41943040 * h := Nat.mul_le_mul_right _ q1
          _ ≤ 31457280 * w := by omega
      exact Nat.le_of_mul_le_mul_right q2 (by omega)
    omega
  have := (Nat.div_lt_iff_lt_mul (by omega : 0 < h)).2 hlt
  omega

theorem aspect_fit_width (w h : Nat) (hw : 1 ≤ w) (hh : 1 ≤ h) (hh' : h ≤ 65536)
    (hx : ¬ ymul h < xmul w) : h * 640 / w ≤ 480 := by
  unfold xmul ymul at hx
  rw [shl_w, shl_h] at hx
  have hx : 41943040 / w ≤ 31457280 / h := Nat.le_of_not_lt hx
  have hlt : h * 640 < 481 * w := by
    by_contra hc
    have hc : 481 * w ≤ h * 640 := Nat.le_of_not_lt hc
    have q0 : 41943040 / w * h ≤ 31457280 :=
      le_trans (Nat.mul_le_mul_right _ hx) (Nat.div_mul_le_self _ _)
    have e : 41943040 * h = 41943040 / w * h * w + 41943040 % w * h := by
      conv_lhs => rw [← Nat.div_add_mod 41943040 w]
      ring
    have p1 : 41943040 / w * h * w ≤ 31457280 * w := Nat.mul_le_mul_right _ q0
    have p2 : 41943040 % w * h ≤ w * h :=
      Nat.mul_le_mul_right _ (Nat.le_of_lt (Nat.mod_lt _ (by omega)))
    have p3 : 41943040 % w * h < w * h :=
      Nat.mul_lt_mul_of_pos_right (Nat.mod_lt _ (by omega)) (by omega)
    have p4 : w * h ≤ w * 65536 := Nat.mul_le_mul_left _ hh'
    omega
  have := (Nat.div_lt_iff_lt_mul (by omega : 0 < w)).2 hlt
  omega

theorem sub32_of_le (a b : Nat) (h : b ≤ a) (ha : a < 2 ^ 32) : sub32 a b = a - b := by
  unfold sub32; omega

theorem u32_of_lt (n : Nat) (h : n < 2 ^ 32) : u32 n = n := by
  unfold u32; omega

theorem set_output_fst (env : gfx_env) (vid : sdl_miyoomini_video) (fb : Mem)
    (w h : Nat) (r : Bool) :
    (sdl_miyoomini_set_output env vid fb w h r).1 =
      { vid with
        screen := env.GFX_CreateRGBSurface (u32 (w * scale_mul vid w h))
          (u32 (h * scale_mul vid w h)) (if r then 32 else 16)
        content_width := w
        content_height := h
        frame_width := u32 (w * scale_mul vid w h)
        frame_height := u32 (h * scale_mul vid w h)
        video_x := (layout_rect vid w h).1
        video_y := (layout_rect vid w h).2.1
        video_w := (layout_rect vid w h).2.2.1
        video_h := (layout_rect vid w h).2.2.2
        scale_func :=
          if scale_mul vid w h = 2 then
            (if r then scale_kernel.scale2x_n32 else scale_kernel.scale2x_n16)
          else if scale_mul vid w h = 4 then
            (if r then scale_kernel.scale4x_n32 else scale_kernel.scale4x_n16)
          else
            (if r then scale_kernel.scale1x_n32 else scale_kernel.scale1x_n16)
        scale_integer := if vid.scale_integer = true ∧ mul_int w h = 0 then false
          else vid.scale_integer } := by
  have hl : layout_rect vid w h = 
    (if (if vid.scale_integer = true ∧ mul_int w h = 0 then false else vid.scale_integer) = true then
      let video_w := u32 (w * mul_int w h)
      let video_h := u32 (h * mul_int w h)
      let wh : Nat × Nat :=
        if vid.keep_aspect = false then
          if u32 (video_w * 3) ≠ u32 (video_h * 4) then
            if u32 (video_w * 3) > u32 (video_h * 4) then (video_w, u32 (video_w * 3) / 4)
            else (u32 (video_h * 4) / 3, video_h)
          else (video_w, video_h)
        else (video_w, video_h)
      (sub32 640 wh.1 >>> 1, sub32 480 wh.2 >>> 1, wh.1, wh.2)
    else if vid.keep_aspect = true then
      if xmul w > ymul h then
        (sub32 640 (u32 (w * 480) / h) >>> 1, 0, u32 (w * 480) / h, 480)
      else
        (0, sub32 480 (u32 (h * 640) / w) >>> 1, 640, u32 (h * 640) / w)
    else (0, 0, 640, 480)) := by
    unfold layout_rect
    cases vid.scale_integer <;> by_cases hm : mul_int w h = 0 <;> simp [hm]
  rw [hl]
  unfold sdl_miyoomini_set_output
  simp only []
  split <;> rfl

theorem center_le (W v : Nat) (hv : v ≤ W) (hW : W < 2 ^ 32) : sub32 W v >>> 1 + v ≤ W := by
  rw [sub32_of_le W v hv hW, Nat.shiftRight_eq_div_pow]
  omega

/-- The 4:3 correction of the integer-scaled box `(a, b)`. -/
theorem fix43_bounds (a b : Nat) (ha : a ≤ 640) (hb : b ≤ 480) :
    (if u32 (a * 3) ≠ u32 (b * 4) then
        if u32 (a * 3) > u32 (b * 4) then (a, u32 (a * 3) / 4) else (u32 (b * 4) / 3, b)
      else (a, b)).1 ≤ 640 ∧
    (if u32 (a * 3) ≠ u32 (b * 4) then
        if u32 (a * 3) > u32 (b * 4) then (a, u32 (a * 3) / 4) else (u32 (b * 4) / 3, b)
      else (a, b)).2 ≤ 480 := by
  rw [u32_of_lt (a * 3) (by omega), u32_of_lt (b * 4) (by omega)]
  split_ifs <;> simp only [] <;> omega

theorem layout_rect_bounds (vid : sdl_miyoomini_video) (w h : Nat)
    (hw : 1 ≤ w) (hw4 : w ≤ 4096) (hh : 1 ≤ h) (hh4 : h ≤ 4096) :
    (layout_rect vid w h).1 + (layout_rect vid w h).2.2.1 ≤ 640 ∧
    (layout_rect vid w h).2.1 + (layout_rect vid w h).2.2.2 ≤ 480 := by
  obtain ⟨m1, m2⟩ := mul_int_mul_le w h
  have a1 := aspect_fit_height w h hw hh
  have a2 := aspect_fit_width w h hw hh (by omega)
  have e1 : u32 (w * 480) = w * 480 := u32_of_lt _ (by omega)
  have e2 : u32 (h * 640) = h * 640 := u32_of_lt _ (by omega)
  have e3 : u32 (w * mul_int w h) = w * mul_int w h := u32_of_lt _ (by omega)
  have e4 : u32 (h * mul_int w h) = h * mul_int w h := u32_of_lt _ (by omega)
  unfold layout_rect
  simp only [e1, e2, e3, e4]
  have c1 := fun v hv => center_le 640 v hv (by norm_num)
  have c2 := fun v hv => center_le 480 v hv (by norm_num)
  by_cases i1 : vid.scale_integer = true ∧ mul_int w h ≠ 0
  · rw [if_pos i1]
    by_cases i2 : vid.keep_aspect = false
    · rw [if_pos i2]
      obtain ⟨f1, f2⟩ := fix43_bounds _ _ m1 m2
      exact ⟨c1 _ f1, c2 _ f2⟩
    · rw [if_neg i2]
      exact ⟨c1 _ m1, c2 _ m2⟩
  · rw [if_neg i1]
    by_cases i2 : vid.keep_aspect = true
    · rw [if_pos i2]
      by_cases i3 : xmul w > ymul h
      · rw [if_pos i3]
        exact ⟨c1 _ (a1 i3), by simp⟩
      · rw [if_neg i3]
        exact ⟨by simp, c2 _ (a2 i3)⟩
    · rw [if_neg i2]
      simp

/-- Claim C1. For content sizes in `[1, 4096]` and every policy / colour depth,
the rectangle written by `sdl_miyoomini_set_output` lies inside the 640x480
display: `video_x + video_w ≤ 640` and `video_y + video_h ≤ 480`. -/
theorem C1_dest_rect_within_display (env : gfx_env) (vid : sdl_miyoomini_video) (fb : Mem)
    (content_w content_h : Nat) (rgb32 : Bool)
    (hw : 1 ≤ content_w) (hw4 : content_w ≤ 4096)
    (hh : 1 ≤ content_h) (hh4 : content_h ≤ 4096) :
    (sdl_miyoomini_set_output env vid fb content_w content_h rgb32).1.video_x
      + (sdl_miyoomini_set_output env vid fb content_w content_h rgb32).1.video_w ≤ 640 ∧
    (sdl_miyoomini_set_output env vid fb content_w content_h rgb32).1.video_y
      + (sdl_miyoomini_set_output env vid fb content_w content_h rgb32).1.video_h ≤ 480 := by
  rw [set_output_fst]
  exact layout_rect_bounds vid content_w content_h hw hw4 hh hh4

/-- Witness for C1: content 320x240, integer scaling with keep-aspect. -/
theorem C1_witness :
    (1 ≤ 320 ∧ 320 ≤ 4096 ∧ 1 ≤ 240 ∧ 240 ≤ 4096) ∧
    ((sdl_miyoomini_set_output env_ok (vid_init true true) fb_ramp 320 240 false).1.video_x
      + (sdl_miyoomini_set_output env_ok (vid_init true true) fb_ramp 320 240 false).1.video_w ≤ 640 ∧
    (sdl_miyoomini_set_output env_ok (vid_init true true) fb_ramp 320 240 false).1.video_y
      + (sdl_miyoomini_set_output env_ok (vid_init true true) fb_ramp 320 240 false).1.video_h ≤ 480) :=
  ⟨by decide, C1_dest_rect_within_display env_ok (vid_init true true) fb_ramp 320 240 false
    (by decide) (by decide) (by decide) (by decide)⟩

/-- Counterexample to C2 as stated: content 256x192 with integer scaling is
pre-scaled by 4 to a 1024x768 frame, larger than the 640x480 display. -/
theorem C2_counterexample :
    ¬ ((sdl_miyoomini_set_output env_ok (vid_init true true) fb_ramp 256 192 false).1.frame_width ≤ 640 ∧
       (sdl_miyoomini_set_output env_ok (vid_init true true) fb_ramp 256 192 false).1.frame_height ≤ 480) := by
  decide

theorem xmul_ge_iff (w c : Nat) (hw : 1 ≤ w) : c ≤ xmul w ↔ c * w ≤ 41943040 := by
  unfold xmul; rw [shl_w]; exact Nat.le_div_iff_mul_le (by omega)

theorem ymul_ge_iff (h c : Nat) (hh : 1 ≤ h) : c ≤ ymul h ↔ c * h ≤ 31457280 := by
  unfold ymul; rw [shl_h]; exact Nat.le_div_iff_mul_le (by omega)

theorem mul_ge_iff (w h c : Nat) : c ≤ mul w h ↔ c ≤ xmul w ∧ c ≤ ymul h := by
  unfold mul
  split_ifs <;> omega

theorem thr4 : (640 <<< 16) / 256 = 163840 := by decide

theorem thr2 : (640 <<< 16) / 512 = 81920 := by decide

theorem mul_ge_thr4_iff (w h : Nat) (hw : 1 ≤ w) (hh : 1 ≤ h) :
    mul w h ≥ (640 <<< 16) / 256 ↔ w ≤ 256 ∧ h ≤ 192 := by
  rw [thr4, ge_iff_le, mul_ge_iff, xmul_ge_iff w _ hw, ymul_ge_iff h _ hh]
  omega

theorem mul_ge_thr2_iff (w h : Nat) (hw : 1 ≤ w) (hh : 1 ≤ h) :
    mul w h ≥ (640 <<< 16) / 512 ↔ w ≤ 512 ∧ h ≤ 384 := by
  rw [thr2, ge_iff_le, mul_ge_iff, xmul_ge_iff w _ hw, ymul_ge_iff h _ hh]
  omega

theorem scale_mul_cases (vid : sdl_miyoomini_video) (w h : Nat) (hw : 1 ≤ w) (hh : 1 ≤ h) :
    (scale_mul vid w h = 4 ∧ w ≤ 256 ∧ h ≤ 192) ∨
    (scale_mul vid w h = 2 ∧ w ≤ 512 ∧ h ≤ 384) ∨
    scale_mul vid w h = 1 := by
  unfold scale_mul
  simp only [mul_ge_thr4_iff w h hw hh, mul_ge_thr2_iff w h hw hh]
  split_ifs <;> omega

/-- Claim C2 (amended). For every content size `content_w, content_h ≥ 1`
(32-bit values) and every policy, the frame written by
`sdl_miyoomini_set_output` is the content size times the selected
`scale_mul ∈ {1, 2, 4}` without wrap-around; it is not bounded by the display:
whenever a multiplier 2 or 4 is selected the frame is at most 1024x768, and with
multiplier 1 it is the content size itself. -/
theorem C2_frame_is_content_times_scale_mul (env : gfx_env) (vid : sdl_miyoomini_video)
    (fb : Mem) (content_w content_h : Nat) (rgb32 : Bool)
    (hw : 1 ≤ content_w) (hw32 : content_w < 2 ^ 32)
    (hh : 1 ≤ content_h) (hh32 : content_h < 2 ^ 32) :
    (scale_mul vid content_w content_h = 1 ∨ scale_mul vid content_w content_h = 2 ∨
      scale_mul vid content_w content_h = 4) ∧
    (sdl_miyoomini_set_output env vid fb content_w content_h rgb32).1.frame_width
      = content_w * scale_mul vid content_w content_h ∧
    (sdl_miyoomini_set_output env vid fb content_w content_h rgb32).1.frame_height
      = content_h * scale_mul vid content_w content_h ∧
    (scale_mul vid content_w content_h ≠ 1 →
      (sdl_miyoomini_set_output env vid fb content_w content_h rgb32).1.frame_width ≤ 1024 ∧
      (sdl_miyoomini_set_output env vid fb content_w content_h rgb32).1.frame_height ≤ 768) := by
  rw [set_output_fst]
  simp only []
  rcases scale_mul_cases vid content_w content_h hw hh with ⟨e, b1, b2⟩ | ⟨e, b1, b2⟩ | e <;>
    simp only [e, u32, Nat.reducePow] <;>
    exact ⟨by simp, by omega, by omega, fun _ => by omega⟩

/-- Witness for C2 (amended): content 256x192. -/
theorem C2_witness :
    (1 ≤ 256 ∧ 256 < 2 ^ 32 ∧ 1 ≤ 192 ∧ 192 < 2 ^ 32) ∧
    ((scale_mul (vid_init true true) 256 192 = 1 ∨ scale_mul (vid_init true true) 256 192 = 2 ∨
      scale_mul (vid_init true true) 256 192 = 4) ∧
    (sdl_miyoomini_set_output env_ok (vid_init true true) fb_ramp 256 192 false).1.frame_width
      = 256 * scale_mul (vid_init true true) 256 192 ∧
    (sdl_miyoomini_set_output env_ok (vid_init true true) fb_ramp 256 192 false).1.frame_height
      = 192 * scale_mul (vid_init true true) 256 192 ∧
    (scale_mul (vid_init true true) 256 192 ≠ 1 →
      (sdl_miyoomini_set_output env_ok (vid_init true true) fb_ramp 256 192 false).1.frame_width ≤ 1024 ∧
      (sdl_miyoomini_set_output env_ok (vid_init true true) fb_ramp 256 192 false).1.frame_height ≤ 768)) :=
  ⟨by decide, C2_frame_is_content_times_scale_mul env_ok (vid_init true true) fb_ramp 256 192 false
    (by decide) (by decide) (by decide) (by decide)⟩

theorem set_output_snd (env : gfx_env) (vid : sdl_miyoomini_video) (fb : Mem)
    (w h : Nat) (r : Bool) :
    (sdl_miyoomini_set_output env vid fb w h r).2 =
      match env.GFX_CreateRGBSurface (u32 (w * scale_mul vid w h))
          (u32 (h * scale_mul vid w h)) (if r then 32 else 16) with
      | none => fb
      | some _ => sdl_miyoomini_clear_border env fb
          (sdl_miyoomini_set_output env vid fb w h r).1.video_x
          (sdl_miyoomini_set_output env vid fb w h r).1.video_y
          (sdl_miyoomini_set_output env vid fb w h r).1.video_w
          (sdl_miyoomini_set_output env vid fb w h r).1.video_h := by
  unfold sdl_miyoomini_set_output
  simp only []
  split <;> rfl

/-- What `sdl_miyoomini_set_output` does when the surface allocation fails: the
fields have been assigned before the allocation and are not rolled back, the
old surface is gone and `screen` is `NULL`; the border clear is skipped. -/
theorem set_output_on_failed_allocation (env env2 : gfx_env) (vid : sdl_miyoomini_video)
    (fb : Mem) (width height : Nat) (rgb32 : Bool)
    (hfail : env.GFX_CreateRGBSurface (u32 (width * scale_mul vid width height))
      (u32 (height * scale_mul vid width height)) (if rgb32 then 32 else 16) = none) :
    (sdl_miyoomini_set_output env vid fb width height rgb32).1 =
      { (sdl_miyoomini_set_output env2 vid fb width height rgb32).1 with screen := none } ∧
    (sdl_miyoomini_set_output env vid fb width height rgb32).1.content_width = width ∧
    (sdl_miyoomini_set_output env vid fb width height rgb32).1.content_height = height ∧
    (sdl_miyoomini_set_output env vid fb width height rgb32).2 = fb := by
  refine ⟨?_, ?_, ?_, ?_⟩
  · rw [set_output_fst, set_output_fst, hfail]
  · rw [set_output_fst]
  · rw [set_output_fst]
  · rw [set_output_snd, hfail]

/-- Claim C3, the code at the failing input.  The claim requires that a failed
surface allocation leaves the output state exactly as it was.  Starting from a
working 640x480 state with a surface, `sdl_miyoomini_set_output(vid, 320, 240,
false)` with a failing allocator does not: the previous surface is lost
(`screen` is `NULL`), and `content_width/height`, `frame_width/height` and
`scale_func` already hold the values for the new content, so the state differs
from the one before the call. -/
theorem C3_state_lost_on_failed_allocation :
    env_fail.GFX_CreateRGBSurface 640 480 16 = none ∧
    (vid_init true true).screen = some ⟨640, 480, 16⟩ ∧
    (vid_init true true).content_width = 640 ∧
    (vid_init true true).content_height = 480 ∧
    (vid_init true true).scale_func = scale_kernel.scale1x_n16 ∧
    (sdl_miyoomini_set_output env_fail (vid_init true true) fb_ramp 320 240 false).1.screen
      = none ∧
    (sdl_miyoomini_set_output env_fail (vid_init true true) fb_ramp 320 240 false).1.content_width
      = 320 ∧
    (sdl_miyoomini_set_output env_fail (vid_init true true) fb_ramp 320 240 false).1.content_height
      = 240 ∧
    (sdl_miyoomini_set_output env_fail (vid_init true true) fb_ramp 320 240 false).1.frame_width
      = 640 ∧
    (sdl_miyoomini_set_output env_fail (vid_init true true) fb_ramp 320 240 false).1.frame_height
      = 480 ∧
    (sdl_miyoomini_set_output env_fail (vid_init true true) fb_ramp 320 240 false).1.scale_func
      = scale_kernel.scale2x_n16 ∧
    (sdl_miyoomini_set_output env_fail (vid_init true true) fb_ramp 320 240 false).1
      ≠ vid_init true true := by
  decide

theorem mul_int_pos_iff (w h : Nat) (hw : 1 ≤ w) (hh : 1 ≤ h) :
    1 ≤ mul_int w h ↔ w ≤ 640 ∧ h ≤ 480 := by
  rw [mul_int_eq]
  have h1 : 1 ≤ 640 / w ↔ w ≤ 640 := by
    rw [Nat.le_div_iff_mul_le (by omega)]; omega
  have h2 : 1 ≤ 480 / h ↔ h ≤ 480 := by
    rw [Nat.le_div_iff_mul_le (by omega)]; omega
  omega

theorem mul_int_zero_iff (w h : Nat) (hw : 1 ≤ w) (hh : 1 ≤ h) :
    mul_int w h = 0 ↔ 640 < w ∨ 480 < h := by
  have := mul_int_pos_iff w h hw hh
  omega

/-- Claim C4. Integer scaling without keep-aspect: when `mul_int ≥ 1` (that is,
`content_w ≤ 640` and `content_h ≤ 480`), `scale_integer = true` and
`keep_aspect = false`, the rectangle written by `sdl_miyoomini_set_output` is
4:3 within one pixel: `video_h = ⌊3·video_w/4⌋` or `video_w = ⌊4·video_h/3⌋`,
hence `|3·video_w − 4·video_h| ≤ 3`. -/
theorem C4_integer_fullscreen_is_4_3 (env : gfx_env) (vid : sdl_miyoomini_video) (fb : Mem)
    (content_w content_h : Nat) (rgb32 : Bool)
    (hw : 1 ≤ content_w) (hh : 1 ≤ content_h) (hm : 1 ≤ mul_int content_w content_h)
    (hs : vid.scale_integer = true) (hk : vid.keep_aspect = false) :
    (content_w ≤ 640 ∧ content_h ≤ 480) ∧
    ((sdl_miyoomini_set_output env vid fb content_w content_h rgb32).1.video_h
        = 3 * (sdl_miyoomini_set_output env vid fb content_w content_h rgb32).1.video_w / 4 ∨
      (sdl_miyoomini_set_output env vid fb content_w content_h rgb32).1.video_w
        = 4 * (sdl_miyoomini_set_output env vid fb content_w content_h rgb32).1.video_h / 3) ∧
    |3 * ((sdl_miyoomini_set_output env vid fb content_w content_h rgb32).1.video_w : Int)
      - 4 * ((sdl_miyoomini_set_output env vid fb content_w content_h rgb32).1.video_h : Int)|
      ≤ 3 := by
  obtain ⟨m1, m2⟩ := mul_int_mul_le content_w content_h
  refine ⟨(mul_int_pos_iff content_w content_h hw hh).1 hm, ?_⟩
  rw [set_output_fst]
  simp only []
  unfold layout_rect
  rw [if_pos ⟨hs, by omega⟩]
  simp only []
  rw [if_pos hk]
  rw [u32_of_lt (content_w * mul_int content_w content_h) (by omega),
    u32_of_lt (content_h * mul_int content_w content_h) (by omega)]
  generalize content_w * mul_int content_w content_h = a at *
  generalize content_h * mul_int content_w content_h = b at *
  rw [u32_of_lt (a * 3) (by omega), u32_of_lt (b * 4) (by omega)]
  simp only [abs_le]
  split_ifs <;> simp only [] <;> omega

/-- Witness for C4: content 256x224. -/
theorem C4_witness :
    (1 ≤ 256 ∧ 1 ≤ 224 ∧ 1 ≤ mul_int 256 224 ∧ (vid_init false true).scale_integer = true ∧
      (vid_init false true).keep_aspect = false) ∧
    ((256 ≤ 640 ∧ 224 ≤ 480) ∧
    ((sdl_miyoomini_set_output env_ok (vid_init false true) fb_ramp 256 224 false).1.video_h
        = 3 * (sdl_miyoomini_set_output env_ok (vid_init false true) fb_ramp 256 224 false).1.video_w / 4 ∨
      (sdl_miyoomini_set_output env_ok (vid_init false true) fb_ramp 256 224 false).1.video_w
        = 4 * (sdl_miyoomini_set_output env_ok (vid_init false true) fb_ramp 256 224 false).1.video_h / 3) ∧
    |3 * ((sdl_miyoomini_set_output env_ok (vid_init false true) fb_ramp 256 224 false).1.video_w : Int)
      - 4 * ((sdl_miyoomini_set_output env_ok (vid_init false true) fb_ramp 256 224 false).1.video_h : Int)|
      ≤ 3) :=
  ⟨by decide, C4_integer_fullscreen_is_4_3 env_ok (vid_init false true) fb_ramp 256 224 false
    (by decide) (by decide) (by decide) rfl rfl⟩

/-- Claim C5. Aspect mode: for content sizes in `[1, 4096]`, `keep_aspect = true`
and integer scaling not in effect (`scale_integer = false`, or `mul_int = 0`),
`sdl_miyoomini_set_output` fits the height when `xmul > ymul`
(`video_h = 480`, `video_w = ⌊content_w·480/content_h⌋ ≤ 640`, `video_y = 0`,
`video_x = ⌊(640 − video_w)/2⌋`) and the width otherwise (`video_w = 640`,
`video_h = ⌊content_h·640/content_w⌋ ≤ 480`, `video_x = 0`,
`video_y = ⌊(480 − video_h)/2⌋`); in both cases one axis is filled and the
other stays within its bound. -/
theorem C5_aspect_mode (env : gfx_env) (vid : sdl_miyoomini_video) (fb : Mem)
    (content_w content_h : Nat) (rgb32 : Bool)
    (hw : 1 ≤ content_w) (hw4 : content_w ≤ 4096)
    (hh : 1 ≤ content_h) (hh4 : content_h ≤ 4096)
    (hk : vid.keep_aspect = true)
    (hs : vid.scale_integer = false ∨
      (vid.scale_integer = true ∧ mul_int content_w content_h = 0)) :
    (xmul content_w > ymul content_h →
      (sdl_miyoomini_set_output env vid fb content_w content_h rgb32).1.video_h = 480 ∧
      (sdl_miyoomini_set_output env vid fb content_w content_h rgb32).1.video_w
        = content_w * 480 / content_h ∧
      (sdl_miyoomini_set_output env vid fb content_w content_h rgb32).1.video_w ≤ 640 ∧
      (sdl_miyoomini_set_output env vid fb content_w content_h rgb32).1.video_y = 0 ∧
      (sdl_miyoomini_set_output env vid fb content_w content_h rgb32).1.video_x
        = (640 - (sdl_miyoomini_set_output env vid fb content_w content_h rgb32).1.video_w) / 2) ∧
    (¬ xmul content_w > ymul content_h →
      (sdl_miyoomini_set_output env vid fb content_w content_h rgb32).1.video_w = 640 ∧
      (sdl_miyoomini_set_output env vid fb content_w content_h rgb32).1.video_h
        = content_h * 640 / content_w ∧
      (sdl_miyoomini_set_output env vid fb content_w content_h rgb32).1.video_h ≤ 480 ∧
      (sdl_miyoomini_set_output env vid fb content_w content_h rgb32).1.video_x = 0 ∧
      (sdl_miyoomini_set_output env vid fb content_w content_h rgb32).1.video_y
        = (480 - (sdl_miyoomini_set_output env vid fb content_w content_h rgb32).1.video_h) / 2) ∧
    (((sdl_miyoomini_set_output env vid fb content_w content_h rgb32).1.video_w = 640 ∧
        (sdl_miyoomini_set_output env vid fb content_w content_h rgb32).1.video_h ≤ 480) ∨
      ((sdl_miyoomini_set_output env vid fb content_w content_h rgb32).1.video_h = 480 ∧
        (sdl_miyoomini_set_output env vid fb content_w content_h rgb32).1.video_w ≤ 640)) := by
  have a1 := aspect_fit_height content_w content_h hw hh
  have a2 := aspect_fit_width content_w content_h hw hh (by omega)
  have hneg : ¬ (vid.scale_integer = true ∧ mul_int content_w content_h ≠ 0) := by
    rcases hs with h | ⟨_, h⟩
    · simp [h]
    · simp [h]
  rw [set_output_fst]
  simp only []
  unfold layout_rect
  rw [if_neg hneg, if_pos hk, u32_of_lt (content_w * 480) (by omega),
    u32_of_lt (content_h * 640) (by omega)]
  by_cases hx : xmul content_w > ymul content_h
  · rw [if_pos hx]
    have b := a1 hx
    have e : sub32 640 (content_w * 480 / content_h) >>> 1
        = (640 - content_w * 480 / content_h) / 2 := by
      rw [sub32_of_le _ _ b (by norm_num), Nat.shiftRight_eq_div_pow]
    rw [e]
    exact ⟨fun _ => ⟨rfl, rfl, b, rfl, rfl⟩, fun hn => absurd hx hn, Or.inr ⟨rfl, b⟩⟩
  · rw [if_neg hx]
    have b := a2 hx
    have e : sub32 480 (content_h * 640 / content_w) >>> 1
        = (480 - content_h * 640 / content_w) / 2 := by
      rw [sub32_of_le _ _ b (by norm_num), Nat.shiftRight_eq_div_pow]
    rw [e]
    exact ⟨fun hp => absurd hp hx, fun _ => ⟨rfl, rfl, b, rfl, rfl⟩, Or.inl ⟨rfl, b⟩⟩

/-- Claim C6. Fullscreen mode: for `content_w, content_h ≥ 1`, `keep_aspect = false`
and either `scale_integer = false` or `scale_integer = true` with `mul_int = 0`
(which is the case exactly when `content_w > 640` or `content_h > 480`),
`sdl_miyoomini_set_output` yields `video_x = video_y = 0`, `video_w = 640`,
`video_h = 480`. -/
theorem C6_fullscreen_mode (env : gfx_env) (vid : sdl_miyoomini_video) (fb : Mem)
    (content_w content_h : Nat) (rgb32 : Bool)
    (hw : 1 ≤ content_w) (hh : 1 ≤ content_h)
    (hk : vid.keep_aspect = false)
    (hs : vid.scale_integer = false ∨
      (vid.scale_integer = true ∧ mul_int content_w content_h = 0)) :
    (mul_int content_w content_h = 0 ↔ (640 < content_w ∨ 480 < content_h)) ∧
    (sdl_miyoomini_set_output env vid fb content_w content_h rgb32).1.video_x = 0 ∧
    (sdl_miyoomini_set_output env vid fb content_w content_h rgb32).1.video_y = 0 ∧
    (sdl_miyoomini_set_output env vid fb content_w content_h rgb32).1.video_w = 640 ∧
    (sdl_miyoomini_set_output env vid fb content_w content_h rgb32).1.video_h = 480 := by
  have hneg : ¬ (vid.scale_integer = true ∧ mul_int content_w content_h ≠ 0) := by
    rcases hs with h | ⟨_, h⟩
    · simp [h]
    · simp [h]
  have hk2 : ¬ vid.keep_aspect = true := by simp [hk]
  refine ⟨mul_int_zero_iff content_w content_h hw hh, ?_⟩
  rw [set_output_fst]
  simp only []
  unfold layout_rect
  rw [if_neg hneg, if_neg hk2]
  exact ⟨rfl, rfl, rfl, rfl⟩

/-- Witness for C5: content 256x224, keep-aspect without integer scaling. -/
theorem C5_witness :
    (1 ≤ 256 ∧ 256 ≤ 4096 ∧ 1 ≤ 224 ∧ 224 ≤ 4096 ∧ (vid_init true false).keep_aspect = true ∧
      ((vid_init true false).scale_integer = false ∨
        ((vid_init true false).scale_integer = true ∧ mul_int 256 224 = 0))) ∧
    (
    (xmul 256 > ymul 224 →
      (sdl_miyoomini_set_output env_ok (vid_init true false) fb_ramp 256 224 false).1.video_h = 480 ∧
      (sdl_miyoomini_set_output env_ok (vid_init true false) fb_ramp 256 224 false).1.video_w
        = 256 * 480 / 224 ∧
      (sdl_miyoomini_set_output env_ok (vid_init true false) fb_ramp 256 224 false).1.video_w ≤ 640 ∧
      (sdl_miyoomini_set_output env_ok (vid_init true false) fb_ramp 256 224 false).1.video_y = 0 ∧
      (sdl_miyoomini_set_output env_ok (vid_init true false) fb_ramp 256 224 false).1.video_x
        = (640 - (sdl_miyoomini_set_output env_ok (vid_init true false) fb_ramp 256 224 false).1.video_w) / 2) ∧
    (¬ xmul 256 > ymul 224 →
      (sdl_miyoomini_set_output env_ok (vid_init true false) fb_ramp 256 224 false).1.video_w = 640 ∧
      (sdl_miyoomini_set_output env_ok (vid_init true false) fb_ramp 256 224 false).1.video_h
        = 224 * 640 / 256 ∧
      (sdl_miyoomini_set_output env_ok (vid_init true false) fb_ramp 256 224 false).1.video_h ≤ 480 ∧
      (sdl_miyoomini_set_output env_ok (vid_init true false) fb_ramp 256 224 false).1.video_x = 0 ∧
      (sdl_miyoomini_set_output env_ok (vid_init true false) fb_ramp 256 224 false).1.video_y
        = (480 - (sdl_miyoomini_set_output env_ok (vid_init true false) fb_ramp 256 224 false).1.video_h) / 2) ∧
    (((sdl_miyoomini_set_output env_ok (vid_init true false) fb_ramp 256 224 false).1.video_w = 640 ∧
        (sdl_miyoomini_set_output env_ok (vid_init true false) fb_ramp 256 224 false).1.video_h ≤ 480) ∨
      ((sdl_miyoomini_set_output env_ok (vid_init true false) fb_ramp 256 224 false).1.video_h = 480 ∧
        (sdl_miyoomini_set_output env_ok (vid_init true false) fb_ramp 256 224 false).1.video_w ≤ 640))) :=
  ⟨by decide, C5_aspect_mode env_ok (vid_init true false) fb_ramp 256 224 false
    (by decide) (by decide) (by decide) (by decide) rfl (Or.inl rfl)⟩

/-- Witness for C6: content 800x600 with integer scaling requested. -/
theorem C6_witness :
    (1 ≤ 800 ∧ 1 ≤ 600 ∧ (vid_init false true).keep_aspect = false ∧
      ((vid_init false true).scale_integer = false ∨
        ((vid_init false true).scale_integer = true ∧ mul_int 800 600 = 0))) ∧
    (
    (mul_int 800 600 = 0 ↔ (640 < 800 ∨ 480 < 600)) ∧
    (sdl_miyoomini_set_output env_ok (vid_init false true) fb_ramp 800 600 true).1.video_x = 0 ∧
    (sdl_miyoomini_set_output env_ok (vid_init false true) fb_ramp 800 600 true).1.video_y = 0 ∧
    (sdl_miyoomini_set_output env_ok (vid_init false true) fb_ramp 800 600 true).1.video_w = 640 ∧
    (sdl_miyoomini_set_output env_ok (vid_init false true) fb_ramp 800 600 true).1.video_h = 480) :=
  ⟨by decide, C6_fullscreen_mode env_ok (vid_init false true) fb_ramp 800 600 true
    (by decide) (by decide) rfl (Or.inr ⟨rfl, by decide⟩)⟩

/-- Counterexample to C10 as stated: for content 320x240 with integer scaling
and keep-aspect the frame is 640x480 (multiplier 2), not 320x240. -/
theorem C10_counterexample :
    ¬ ((sdl_miyoomini_set_output env_ok (vid_init true true) fb_ramp 320 240 false).1.frame_width
          = 320 ∧
       (sdl_miyoomini_set_output env_ok (vid_init true true) fb_ramp 320 240 false).1.frame_height
          = 240 ∧
       (sdl_miyoomini_set_output env_ok (vid_init true true) fb_ramp 320 240 false).1.video_w = 640 ∧
       (sdl_miyoomini_set_output env_ok (vid_init true true) fb_ramp 320 240 false).1.video_h = 480 ∧
       (sdl_miyoomini_set_output env_ok (vid_init true true) fb_ramp 320 240 false).1.video_x = 0 ∧
       (sdl_miyoomini_set_output env_ok (vid_init true true) fb_ramp 320 240 false).1.video_y = 0) := by
  decide

theorem clear_border_full (env : gfx_env) (fb : Mem) :
    sdl_miyoomini_clear_border env fb 0 0 640 480 = fb := by
  unfold sdl_miyoomini_clear_border
  simp [SDL_MIYOOMINI_WIDTH, SDL_MIYOOMINI_HEIGHT]

/-- Claim C10 (amended). Content 320x240 with `scale_integer = true` and
`keep_aspect = true`: `sdl_miyoomini_set_output` selects pre-scale multiplier 2
(`frame_width = 640`, `frame_height = 480`, a 2x kernel) and yields
`video_w = 640`, `video_h = 480`, `video_x = video_y = 0`, so that clearing the
border is a no-op and the framebuffer is unchanged. -/
theorem C10_scenario_320x240 (env : gfx_env) (vid : sdl_miyoomini_video) (fb : Mem)
    (rgb32 : Bool) (hs : vid.scale_integer = true) (hk : vid.keep_aspect = true) :
    scale_mul vid 320 240 = 2 ∧
    (sdl_miyoomini_set_output env vid fb 320 240 rgb32).1.frame_width = 640 ∧
    (sdl_miyoomini_set_output env vid fb 320 240 rgb32).1.frame_height = 480 ∧
    (sdl_miyoomini_set_output env vid fb 320 240 rgb32).1.scale_func
      = (if rgb32 then scale_kernel.scale2x_n32 else scale_kernel.scale2x_n16) ∧
    (sdl_miyoomini_set_output env vid fb 320 240 rgb32).1.video_w = 640 ∧
    (sdl_miyoomini_set_output env vid fb 320 240 rgb32).1.video_h = 480 ∧
    (sdl_miyoomini_set_output env vid fb 320 240 rgb32).1.video_x = 0 ∧
    (sdl_miyoomini_set_output env vid fb 320 240 rgb32).1.video_y = 0 ∧
    sdl_miyoomini_clear_border env fb
      (sdl_miyoomini_set_output env vid fb 320 240 rgb32).1.video_x
      (sdl_miyoomini_set_output env vid fb 320 240 rgb32).1.video_y
      (sdl_miyoomini_set_output env vid fb 320 240 rgb32).1.video_w
      (sdl_miyoomini_set_output env vid fb 320 240 rgb32).1.video_h = fb ∧
    (sdl_miyoomini_set_output env vid fb 320 240 rgb32).2 = fb := by
  have hsm : scale_mul vid 320 240 = 2 := by
    unfold scale_mul
    rw [if_pos (Or.inl hs)]
    decide
  have hmi : mul_int 320 240 = 2 := by decide
  have hl : layout_rect vid 320 240 = (0, 0, 640, 480) := by
    unfold layout_rect
    rw [if_pos ⟨hs, by rw [hmi]; decide⟩]
    simp only [hk, hmi]
    decide
  rw [set_output_snd, set_output_fst]
  simp only [hsm, hl]
  refine ⟨trivial, by decide, by decide, by simp, trivial, trivial, trivial, trivial,
    clear_border_full env fb, ?_⟩
  split
  · rfl
  · exact clear_border_full env fb

/-- Witness for C10 (amended). -/
theorem C10_witness :
    ((vid_init true true).scale_integer = true ∧ (vid_init true true).keep_aspect = true) ∧
    (scale_mul (vid_init true true) 320 240 = 2 ∧
    (sdl_miyoomini_set_output env_ok (vid_init true true) fb_ramp 320 240 false).1.frame_width = 640 ∧
    (sdl_miyoomini_set_output env_ok (vid_init true true) fb_ramp 320 240 false).1.frame_height = 480 ∧
    (sdl_miyoomini_set_output env_ok (vid_init true true) fb_ramp 320 240 false).1.scale_func
      = (if false then scale_kernel.scale2x_n32 else scale_kernel.scale2x_n16) ∧
    (sdl_miyoomini_set_output env_ok (vid_init true true) fb_ramp 320 240 false).1.video_w = 640 ∧
    (sdl_miyoomini_set_output env_ok (vid_init true true) fb_ramp 320 240 false).1.video_h = 480 ∧
    (sdl_miyoomini_set_output env_ok (vid_init true true) fb_ramp 320 240 false).1.video_x = 0 ∧
    (sdl_miyoomini_set_output env_ok (vid_init true true) fb_ramp 320 240 false).1.video_y = 0 ∧
    sdl_miyoomini_clear_border env_ok fb_ramp
      (sdl_miyoomini_set_output env_ok (vid_init true true) fb_ramp 320 240 false).1.video_x
      (sdl_miyoomini_set_output env_ok (vid_init true true) fb_ramp 320 240 false).1.video_y
      (sdl_miyoomini_set_output env_ok (vid_init true true) fb_ramp 320 240 false).1.video_w
      (sdl_miyoomini_set_output env_ok (vid_init true true) fb_ramp 320 240 false).1.video_h
        = fb_ramp ∧
    (sdl_miyoomini_set_output env_ok (vid_init true true) fb_ramp 320 240 false).2 = fb_ramp) :=
  ⟨⟨rfl, rfl⟩, C10_scenario_320x240 env_ok (vid_init true true) fb_ramp false rfl rfl⟩

/-! ## Border clearing -/

theorem memset_zero_apply (m : Mem) (pa len a : Nat) :
    MI_SYS_MemsetPa m pa 0 len a = if pa ≤ a ∧ a < pa + len then 0 else m a := by
  unfold MI_SYS_MemsetPa
  split_ifs <;> rfl

/-- Guarded memset `if (len) MI_SYS_MemsetPa(pa, 0, len)`. -/
theorem guarded_memset_apply (m : Mem) (pa len a : Nat) :
    (if len ≠ 0 then MI_SYS_MemsetPa m pa 0 len else m) a
      = if pa ≤ a ∧ a < pa + len then 0 else m a := by
  by_cases hl : len = 0
  · subst hl
    rw [if_neg (by simp), if_neg (by omega)]
  · rw [if_pos hl, memset_zero_apply]

/-- Effect of the row loop: `n` runs of `srl` bytes, one every 2560 bytes. -/
theorem clear_border_rows_spec (srl : Nat) (hsrl : srl ≤ 2560) :
    ∀ (n : Nat) (m : Mem) (p : Nat),
      (clear_border_rows srl 2560 n (m, p)).2 = p + n * 2560 ∧
      ∀ a, (clear_border_rows srl 2560 n (m, p)).1 a =
        if p ≤ a ∧ (a - p) / 2560 < n ∧ (a - p) % 2560 < srl then 0 else m a := by
  intro n
  induction n with
  | zero =>
    intro m p
    refine ⟨by simp [clear_border_rows], fun a => ?_⟩
    rw [if_neg (by omega)]
    rfl
  | succ n ih =>
    intro m p
    obtain ⟨ih1, ih2⟩ := ih (if srl ≠ 0 then MI_SYS_MemsetPa m p 0 srl else m) (p + 2560)
    refine ⟨?_, fun a => ?_⟩
    · show (clear_border_rows srl 2560 n _).2 = _
      rw [ih1]; omega
    · show (clear_border_rows srl 2560 n _).1 a = _
      rw [ih2, guarded_memset_apply]
      split_ifs <;> first | rfl | omega

theorem clear_border_rows_snd (srl : Nat) (hsrl : srl ≤ 2560) (n : Nat) (m : Mem) (p : Nat) :
    (clear_border_rows srl 2560 n (m, p)).2 = p + n * 2560 :=
  (clear_border_rows_spec srl hsrl n m p).1

theorem clear_border_rows_fst (srl : Nat) (hsrl : srl ≤ 2560) (n : Nat) (m : Mem) (p a : Nat) :
    (clear_border_rows srl 2560 n (m, p)).1 a =
      if p ≤ a ∧ (a - p) / 2560 < n ∧ (a - p) % 2560 < srl then 0 else m a :=
  (clear_border_rows_spec srl hsrl n m p).2 a

theorem ite_zero_or (c d : Prop) [Decidable c] [Decidable d] (v : Nat) :
    (if c then 0 else if d then 0 else v) = if c ∨ d then 0 else v := by
  by_cases hc : c <;> by_cases hd : d <;> simp [hc, hd]

/-- Inside the three pages, `sdl_miyoomini_clear_border` keeps exactly the
bytes of the (rotated) destination rectangle and zeroes the others. -/
theorem clear_border_inside_pages (env : gfx_env) (fb : Mem) (x y w h : Nat)
    (hw : 1 ≤ w) (hh : 1 ≤ h) (hx : x + w ≤ 640) (hy : y + h ≤ 480)
    (hnf : ¬ (x = 0 ∧ y = 0 ∧ w = 640 ∧ h = 480))
    (page row col k : Nat) (hp : page < 3) (hr : row < 480) (hc : col < 640) (hk : k < 4) :
    sdl_miyoomini_clear_border env fb x y w h
        (env.smem_start + ((page * 480 + row) * 640 + col) * 4 + k) =
      if 640 - (x + w) ≤ col ∧ col < 640 - x ∧ 480 - (y + h) ≤ row ∧ row < 480 - y then
        fb (env.smem_start + ((page * 480 + row) * 640 + col) * 4 + k)
      else 0 := by
  have c1 : (640 - (x + w) ≤ col ∧ col < 640 - x ∧ 480 - (y + h) ≤ row ∧ row < 480 - y)
      ↔ (640 - (x + w) ≤ col ∧ col < 640 - (x + w) + w ∧
          480 - (y + h) ≤ row ∧ row < 480 - (y + h) + h) := by omega
  simp only [c1]
  clear c1
  generalize ha : env.smem_start + ((page * 480 + row) * 640 + col) * 4 + k = a
  unfold sdl_miyoomini_clear_border
  rw [if_neg (by simpa [SDL_MIYOOMINI_WIDTH, SDL_MIYOOMINI_HEIGHT] using hnf),
    if_neg (by omega)]
  simp only [SDL_MIYOOMINI_WIDTH, SDL_MIYOOMINI_HEIGHT]
  have e1 : sub32 640 (u32 (x + w)) = 640 - (x + w) := by unfold sub32 u32; omega
  have e2 : sub32 480 (u32 (y + h)) = 480 - (y + h) := by unfold sub32 u32; omega
  have e3 : sub32 h 1 = h - 1 := by unfold sub32; omega
  have e4 : u32 (640 * 4) = 2560 := by decide
  rw [e1, e2, e3, e4]
  have e5 : u32 ((640 - (x + w)) * 4) = (640 - (x + w)) * 4 := by unfold u32; omega
  have e6 : u32 (x * 4) = x * 4 := by unfold u32; omega
  have e7 : u32 (u32 ((480 - (y + h)) * 640) * 4) = (480 - (y + h)) * 2560 := by
    unfold u32; omega
  have e8 : u32 (u32 (y * 640) * 4) = y * 2560 := by unfold u32; omega
  have e9 : u32 (w * 4) = w * 4 := by unfold u32; omega
  rw [e5, e6, e7, e8, e9]
  have f1 : u32 (x * 4 + (640 - (x + w)) * 4) = (640 - w) * 4 := by unfold u32; omega
  have f2 : u32 ((480 - (y + h)) * 2560 + (640 - (x + w)) * 4)
      = (480 - (y + h)) * 2560 + (640 - (x + w)) * 4 := by unfold u32; omega
  have f3 : u32 (x * 4 + y * 2560) = x * 4 + y * 2560 := by unfold u32; omega
  rw [f1, f2, f3]
  have f4 : u32 (u32 ((640 - w) * 4 + y * 2560) + (480 - (y + h)) * 2560)
      = (640 - w) * 4 + (480 - h) * 2560 := by unfold u32; omega
  rw [f4]
  have f5 : u32 ((480 - (y + h)) * 2560 + (640 - (x + w)) * 4 + w * 4)
      = (480 - (y + h)) * 2560 + (640 - (x + w)) * 4 + w * 4 := by unfold u32; omega
  have f6 : u32 ((640 - w) * 4 + (480 - h) * 2560 + w * 4)
      = (640 - w) * 4 + (480 - h) * 2560 + w * 4 := by unfold u32; omega
  rw [f5, f6]
  have hsrl : (640 - w) * 4 ≤ 2560 := by omega
  simp only [guarded_memset_apply, clear_border_rows_fst _ hsrl, clear_border_rows_snd _ hsrl]
  generalize env.smem_start = b at *
  clear e1 e2 e3 e4 e5 e6 e7 e8 e9 f1 f2 f3 f4 f5 f6 hsrl hnf
  have g1 : 640 - w = 640 - (x + w) + x := by omega
  have g2 : 480 - h = 480 - (y + h) + y := by omega
  rw [g1, g2]
  clear g1 g2
  obtain ⟨h1, rfl⟩ : ∃ h1, h = h1 + 1 := ⟨h - 1, by omega⟩
  have hx0 : 640 - (x + w) + x + w = 640 := by omega
  have hy0 : 480 - (y + (h1 + 1)) + y + h1 = 479 := by omega
  generalize 640 - (x + w) = x0 at *
  generalize 480 - (y + (h1 + 1)) = y0 at *
  simp only [Nat.add_sub_cancel, ite_zero_or]
  by_cases hin : x0 ≤ col ∧ col < x0 + w ∧ y0 ≤ row ∧ row < y0 + (h1 + 1)
  · rw [if_pos hin, if_neg]
    rintro (h | h | h | h | h | h | h) <;> omega
  · rw [if_neg hin, if_pos]
    by_cases t1 : row < y0 ∨ (row = y0 ∧ col < x0)
    ·
      interval_cases page
      · exact Or.inr (Or.inr (Or.inr (Or.inr (Or.inr (Or.inr (by omega))))))
      · exact Or.inr (Or.inr (Or.inr (Or.inr (Or.inl (by omega)))))
      · exact Or.inr (Or.inr (Or.inl (by omega)))
    · by_cases t2 : y0 + h1 + 1 ≤ row ∨ (row = y0 + h1 ∧ x0 + w ≤ col)
      ·
        interval_cases page
        · exact Or.inr (Or.inr (Or.inr (Or.inr (Or.inl (by omega)))))
        · exact Or.inr (Or.inr (Or.inl (by omega)))
        · exact Or.inl (by omega)
      ·
        interval_cases page
        · exact Or.inr (Or.inr (Or.inr (Or.inr (Or.inr (Or.inl (by omega))))))
        · exact Or.inr (Or.inr (Or.inr (Or.inl (by omega))))
        · exact Or.inr (Or.inl (by omega))

/-- Outside the three pages `sdl_miyoomini_clear_border` writes nothing. -/
theorem clear_border_outside_pages (env : gfx_env) (fb : Mem) (x y w h : Nat)
    (hw : 1 ≤ w) (hh : 1 ≤ h) (hx : x + w ≤ 640) (hy : y + h ≤ 480)
    (hnf : ¬ (x = 0 ∧ y = 0 ∧ w = 640 ∧ h = 480))
    (a : Nat) (ha : a < env.smem_start ∨ env.smem_start + 3 * (640 * 480 * 4) ≤ a) :
    sdl_miyoomini_clear_border env fb x y w h a = fb a := by
  unfold sdl_miyoomini_clear_border
  rw [if_neg (by simpa [SDL_MIYOOMINI_WIDTH, SDL_MIYOOMINI_HEIGHT] using hnf),
    if_neg (by omega)]
  simp only [SDL_MIYOOMINI_WIDTH, SDL_MIYOOMINI_HEIGHT]
  have e1 : sub32 640 (u32 (x + w)) = 640 - (x + w) := by unfold sub32 u32; omega
  have e2 : sub32 480 (u32 (y + h)) = 480 - (y + h) := by unfold sub32 u32; omega
  have e3 : sub32 h 1 = h - 1 := by unfold sub32; omega
  have e4 : u32 (640 * 4) = 2560 := by decide
  rw [e1, e2, e3, e4]
  have e5 : u32 ((640 - (x + w)) * 4) = (640 - (x + w)) * 4 := by unfold u32; omega
  have e6 : u32 (x * 4) = x * 4 := by unfold u32; omega
  have e7 : u32 (u32 ((480 - (y + h)) * 640) * 4) = (480 - (y + h)) * 2560 := by
    unfold u32; omega
  have e8 : u32 (u32 (y * 640) * 4) = y * 2560 := by unfold u32; omega
  have e9 : u32 (w * 4) = w * 4 := by unfold u32; omega
  rw [e5, e6, e7, e8, e9]
  have f1 : u32 (x * 4 + (640 - (x + w)) * 4) = (640 - w) * 4 := by unfold u32; omega
  have f2 : u32 ((480 - (y + h)) * 2560 + (640 - (x + w)) * 4)
      = (480 - (y + h)) * 2560 + (640 - (x + w)) * 4 := by unfold u32; omega
  have f3 : u32 (x * 4 + y * 2560) = x * 4 + y * 2560 := by unfold u32; omega
  rw [f1, f2, f3]
  have f4 : u32 (u32 ((640 - w) * 4 + y * 2560) + (480 - (y + h)) * 2560)
      = (640 - w) * 4 + (480 - h) * 2560 := by unfold u32; omega
  rw [f4]
  have f5 : u32 ((480 - (y + h)) * 2560 + (640 - (x + w)) * 4 + w * 4)
      = (480 - (y + h)) * 2560 + (640 - (x + w)) * 4 + w * 4 := by unfold u32; omega
  have f6 : u32 ((640 - w) * 4 + (480 - h) * 2560 + w * 4)
      = (640 - w) * 4 + (480 - h) * 2560 + w * 4 := by unfold u32; omega
  rw [f5, f6]
  have hsrl : (640 - w) * 4 ≤ 2560 := by omega
  simp only [guarded_memset_apply, clear_border_rows_fst _ hsrl, clear_border_rows_snd _ hsrl]
  generalize env.smem_start = b at *
  clear e1 e2 e3 e4 e5 e6 e7 e8 e9 f1 f2 f3 f4 f5 f6 hsrl hnf
  have g1 : 640 - w = 640 - (x + w) + x := by omega
  have g2 : 480 - h = 480 - (y + h) + y := by omega
  rw [g1, g2]
  clear g1 g2
  obtain ⟨h1, rfl⟩ : ∃ h1, h = h1 + 1 := ⟨h - 1, by omega⟩
  have hx0 : 640 - (x + w) + x + w = 640 := by omega
  have hy0 : 480 - (y + (h1 + 1)) + y + h1 = 479 := by omega
  generalize 640 - (x + w) = x0 at *
  generalize 480 - (y + (h1 + 1)) = y0 at *
  simp only [Nat.add_sub_cancel, ite_zero_or]
  rw [if_neg]
  rintro (h | h | h | h | h | h | h) <;> omega

/-- Claim C7. The framebuffer is three consecutive 640x480 pages of 32-bit
pixels starting at `smem_start`; the destination rectangle is stored rotated
by 180 degrees (columns `[640-x-w, 640-x)`, rows `[480-y-h, 480-y)` of each
page).  For `w, h ≥ 1`, `x + w ≤ 640`, `y + h ≤ 480`,
`sdl_miyoomini_clear_border(x, y, w, h)` zeroes every byte of every pixel of
every page outside that rectangle, leaves every pixel inside it unchanged and
writes nothing outside the three pages; `clear_border(0, 0, 640, 480)` changes
nothing. -/
theorem C7_clear_border_zeroes_margins (env : gfx_env) (fb : Mem) (x y w h : Nat)
    (hw : 1 ≤ w) (hh : 1 ≤ h) (hx : x + w ≤ 640) (hy : y + h ≤ 480) :
    (∀ page row col k, page < 3 → row < 480 → col < 640 → k < 4 →
      sdl_miyoomini_clear_border env fb x y w h
          (env.smem_start + ((page * 480 + row) * 640 + col) * 4 + k) =
        if 640 - (x + w) ≤ col ∧ col < 640 - x ∧ 480 - (y + h) ≤ row ∧ row < 480 - y then
          fb (env.smem_start + ((page * 480 + row) * 640 + col) * 4 + k)
        else 0) ∧
    (∀ a, a < env.smem_start ∨ env.smem_start + 3 * (640 * 480 * 4) ≤ a →
      sdl_miyoomini_clear_border env fb x y w h a = fb a) ∧
    sdl_miyoomini_clear_border env fb 0 0 640 480 = fb := by
  by_cases hnf : x = 0 ∧ y = 0 ∧ w = 640 ∧ h = 480
  · obtain ⟨rfl, rfl, rfl, rfl⟩ := hnf
    rw [clear_border_full]
    refine ⟨fun page row col k hp hr hc hk => ?_, fun a _ => rfl, rfl⟩
    rw [if_pos (by omega)]
  · exact ⟨fun page row col k hp hr hc hk =>
        clear_border_inside_pages env fb x y w h hw hh hx hy hnf page row col k hp hr hc hk,
      fun a ha => clear_border_outside_pages env fb x y w h hw hh hx hy hnf a ha,
      clear_border_full env fb⟩

/-- Witness for C7: the centred 320x240 rectangle. -/
theorem C7_witness :
    (1 ≤ 320 ∧ 1 ≤ 240 ∧ 160 + 320 ≤ 640 ∧ 120 + 240 ≤ 480) ∧
    ((∀ page row col k, page < 3 → row < 480 → col < 640 → k < 4 →
      sdl_miyoomini_clear_border env_ok fb_ramp 160 120 320 240
          (env_ok.smem_start + ((page * 480 + row) * 640 + col) * 4 + k) =
        if 640 - (160 + 320) ≤ col ∧ col < 640 - 160 ∧ 480 - (120 + 240) ≤ row ∧
            row < 480 - 120 then
          fb_ramp (env_ok.smem_start + ((page * 480 + row) * 640 + col) * 4 + k)
        else 0) ∧
    (∀ a, a < env_ok.smem_start ∨ env_ok.smem_start + 3 * (640 * 480 * 4) ≤ a →
      sdl_miyoomini_clear_border env_ok fb_ramp 160 120 320 240 a = fb_ramp a) ∧
    sdl_miyoomini_clear_border env_ok fb_ramp 0 0 640 480 = fb_ramp) :=
  ⟨by decide, C7_clear_border_zeroes_margins env_ok fb_ramp 160 120 320 240
    (by decide) (by decide) (by decide) (by decide)⟩

/-! ## `lcd2x` kernels: bit-level facts -/

theorem div_65536_eq_shiftRight (n : Nat) : n / 65536 = n >>> 16 := by
  rw [Nat.shiftRight_eq_div_pow]

theorem testBit_lit_high (m k : Nat) (hm : m < 2 ^ 16) (hk : 16 ≤ k) : m.testBit k = false :=
  Nat.testBit_lt_two_pow (lt_of_lt_of_le hm (Nat.pow_le_pow_right (by norm_num) hk))

theorem bit_rb_lo (pix : Nat) :
    ((pix &&& 0xF800) ||| ((pix &&& 0x001F) <<< 16)) % 65536 = (pix % 65536) &&& 0xF800 := by
  apply Nat.eq_of_testBit_eq
  intro j
  rw [show (65536 : Nat) = 2 ^ 16 by norm_num]
  simp only [Nat.testBit_mod_two_pow, Nat.testBit_or, Nat.testBit_and, Nat.testBit_shiftLeft]
  by_cases hj : j < 16 <;> simp [hj]

theorem bit_rb_hi (pix : Nat) :
    ((pix &&& 0xF800) ||| ((pix &&& 0x001F) <<< 16)) / 65536 % 65536
      = (pix % 65536) &&& 0x001F := by
  apply Nat.eq_of_testBit_eq
  intro j
  simp only [div_65536_eq_shiftRight]
  rw [show (65536 : Nat) = 2 ^ 16 by norm_num]
  simp only [Nat.testBit_mod_two_pow, Nat.testBit_or, Nat.testBit_and, Nat.testBit_shiftLeft,
    Nat.testBit_shiftRight]
  by_cases hj : j < 16 <;>
    simp [hj, testBit_lit_high 0xF800 (16 + j) (by norm_num) (by omega)]

theorem bit_gp_lo (pix : Nat) :
    ((pix &&& 0x07E0) ||| u32 (pix <<< 16)) % 65536 = (pix % 65536) &&& 0x07E0 := by
  apply Nat.eq_of_testBit_eq
  intro j
  unfold u32
  rw [show (65536 : Nat) = 2 ^ 16 by norm_num]
  simp only [Nat.testBit_mod_two_pow, Nat.testBit_or, Nat.testBit_and, Nat.testBit_shiftLeft]
  by_cases hj : j < 16 <;> simp [hj]

theorem bit_gp_hi (pix : Nat) :
    ((pix &&& 0x07E0) ||| u32 (pix <<< 16)) / 65536 % 65536 = pix % 65536 := by
  apply Nat.eq_of_testBit_eq
  intro j
  unfold u32
  simp only [div_65536_eq_shiftRight]
  rw [show (65536 : Nat) = 2 ^ 16 by norm_num]
  simp only [Nat.testBit_mod_two_pow, Nat.testBit_or, Nat.testBit_and, Nat.testBit_shiftLeft,
    Nat.testBit_shiftRight]
  by_cases hj : j < 16
  · have : 16 + j < 32 := by omega
    simp [hj, this, testBit_lit_high 0x07E0 (16 + j) (by norm_num) (by omega)]
  · simp [hj]

theorem bit_rb2_lo (pix : Nat) :
    (((pix >>> 16) &&& 0xF800) ||| (pix &&& 0x001F0000)) % 65536
      = (pix / 65536) &&& 0xF800 := by
  apply Nat.eq_of_testBit_eq
  intro j
  simp only [div_65536_eq_shiftRight]
  rw [show (65536 : Nat) = 2 ^ 16 by norm_num,
    show (0x001F0000 : Nat) = 0x1F <<< 16 by decide]
  simp only [Nat.testBit_mod_two_pow, Nat.testBit_or, Nat.testBit_and, Nat.testBit_shiftLeft,
    Nat.testBit_shiftRight]
  by_cases hj : j < 16
  · simp [hj]
  · simp [hj, testBit_lit_high 0xF800 j (by norm_num) (by omega)]

theorem bit_rb2_hi (pix : Nat) :
    (((pix >>> 16) &&& 0xF800) ||| (pix &&& 0x001F0000)) / 65536 % 65536
      = (pix / 65536) &&& 0x001F := by
  apply Nat.eq_of_testBit_eq
  intro j
  simp only [div_65536_eq_shiftRight]
  rw [show (65536 : Nat) = 2 ^ 16 by norm_num,
    show (0x001F0000 : Nat) = 0x1F <<< 16 by decide]
  simp only [Nat.testBit_mod_two_pow, Nat.testBit_or, Nat.testBit_and, Nat.testBit_shiftLeft,
    Nat.testBit_shiftRight]
  by_cases hj : j < 16
  · simp [hj, testBit_lit_high 0xF800 (16 + j) (by norm_num) (by omega)]
  · simp [hj, testBit_lit_high 0x1F j (by norm_num) (by omega)]

theorem bit_gp2_lo (pix : Nat) :
    (((pix >>> 16) &&& 0x07E0) ||| (pix &&& 0xFFFF0000)) % 65536
      = (pix / 65536) &&& 0x07E0 := by
  apply Nat.eq_of_testBit_eq
  intro j
  simp only [div_65536_eq_shiftRight]
  rw [show (65536 : Nat) = 2 ^ 16 by norm_num,
    show (0xFFFF0000 : Nat) = 0xFFFF <<< 16 by decide]
  simp only [Nat.testBit_mod_two_pow, Nat.testBit_or, Nat.testBit_and, Nat.testBit_shiftLeft,
    Nat.testBit_shiftRight]
  by_cases hj : j < 16
  · simp [hj]
  · simp [hj, testBit_lit_high 0x07E0 j (by norm_num) (by omega)]

theorem bit_gp2_hi (pix : Nat) (hp : pix < 2 ^ 32) :
    (((pix >>> 16) &&& 0x07E0) ||| (pix &&& 0xFFFF0000)) / 65536 % 65536 = pix / 65536 := by
  apply Nat.eq_of_testBit_eq
  intro j
  simp only [div_65536_eq_shiftRight]
  rw [show (65536 : Nat) = 2 ^ 16 by norm_num,
    show (0xFFFF0000 : Nat) = (2 ^ 16 - 1) <<< 16 by decide]
  simp only [Nat.testBit_mod_two_pow, Nat.testBit_or, Nat.testBit_and, Nat.testBit_shiftLeft,
    Nat.testBit_shiftRight, Nat.testBit_two_pow_sub_one]
  by_cases hj : j < 16
  · simp [hj, testBit_lit_high 0x07E0 (16 + j) (by norm_num) (by omega)]
  · simp [hj]
    apply Nat.testBit_lt_two_pow
    calc pix < 2 ^ 32 := hp
      _ ≤ 2 ^ (16 + j) := Nat.pow_le_pow_right (by norm_num) (by omega)

/-! ## Memory lemmas -/

theorem load8_lt (m : Mem) (a : Nat) : load8 m a < 256 := by
  unfold load8; omega

theorem load16_lt (m : Mem) (a : Nat) : load16 m a < 65536 := by
  have h1 := load8_lt m a
  have h2 := load8_lt m (a + 1)
  unfold load16; omega

theorem load32_eq (m : Mem) (a : Nat) :
    load32 m a = load16 m a + 65536 * load16 m (a + 2) := by
  unfold load32 load16
  rw [show a + 2 + 1 = a + 3 by omega]
  omega

theorem load32_lt (m : Mem) (a : Nat) : load32 m a < 2 ^ 32 := by
  have h1 := load16_lt m a
  have h2 := load16_lt m (a + 2)
  rw [load32_eq]; omega

theorem load32_mod (m : Mem) (a : Nat) : load32 m a % 65536 = load16 m a := by
  have h1 := load16_lt m a
  rw [load32_eq]; omega

theorem load32_div (m : Mem) (a : Nat) : load32 m a / 65536 = load16 m (a + 2) := by
  have h1 := load16_lt m a
  rw [load32_eq]; omega

theorem store32_frame (m : Mem) (a v b : Nat) (h : b < a ∨ a + 4 ≤ b) :
    store32 m a v b = m b := by
  unfold store32
  rw [if_neg (by omega), if_neg (by omega), if_neg (by omega), if_neg (by omega)]

theorem load16_store32_frame (m : Mem) (a v b : Nat) (h : b + 2 ≤ a ∨ a + 4 ≤ b) :
    load16 (store32 m a v) b = load16 m b := by
  unfold load16 load8
  rw [store32_frame m a v b (by omega), store32_frame m a v (b + 1) (by omega)]

theorem load32_store32_frame (m : Mem) (a v b : Nat) (h : b + 4 ≤ a ∨ a + 4 ≤ b) :
    load32 (store32 m a v) b = load32 m b := by
  rw [load32_eq, load32_eq, load16_store32_frame m a v b (by omega),
    load16_store32_frame m a v (b + 2) (by omega)]

theorem load16_store32_lo (m : Mem) (a v : Nat) :
    load16 (store32 m a v) a = v % 65536 := by
  unfold load16 load8 store32
  rw [if_pos rfl, if_neg (by omega), if_pos rfl]
  omega

theorem load16_store32_hi (m : Mem) (a v : Nat) :
    load16 (store32 m a v) (a + 2) = v / 65536 % 65536 := by
  unfold load16 load8 store32
  rw [if_neg (by omega), if_neg (by omega), if_pos rfl, if_neg (by omega), if_neg (by omega),
    if_neg (by omega), if_pos rfl]
  omega

theorem load32_store32 (m : Mem) (a v : Nat) :
    load32 (store32 m a v) a = v % 2 ^ 32 := by
  rw [load32_eq, load16_store32_lo, load16_store32_hi]
  omega

/-! ## `lcd2x_c16`: one pair of source pixels -/

theorem c16_pair_frame (srcm : Mem) (s d dp32 x dx : Nat) (m : Mem)
    (hdx : dx + dp32 + 1 < 2 ^ 32) (b : Nat)
    (hb : (b < d + 4 * dx ∨ d + 4 * dx + 8 ≤ b) ∧
      (b < d + 4 * (dx + dp32) ∨ d + 4 * (dx + dp32) + 8 ≤ b)) :
    lcd2x_c16_pair srcm s d dp32 x dx m b = m b := by
  unfold lcd2x_c16_pair
  rw [u32_of_lt (dx + 1) (by omega), u32_of_lt (dx + dp32) (by omega),
    u32_of_lt (dx + dp32 + 1) (by omega)]
  rw [store32_frame _ _ _ _ (by omega), store32_frame _ _ _ _ (by omega),
    store32_frame _ _ _ _ (by omega), store32_frame _ _ _ _ (by omega)]

theorem c16_pair_pixels (srcm : Mem) (s d dp32 x dx : Nat) (m : Mem)
    (hdx : dx + dp32 + 1 < 2 ^ 32) (hdp : 2 ≤ dp32) :
    load16 (lcd2x_c16_pair srcm s d dp32 x dx m) (d + 4 * dx)
      = load16 srcm (s + 4 * x) &&& 0xF800 ∧
    load16 (lcd2x_c16_pair srcm s d dp32 x dx m) (d + 4 * dx + 2)
      = load16 srcm (s + 4 * x) &&& 0x001F ∧
    load16 (lcd2x_c16_pair srcm s d dp32 x dx m) (d + 4 * dx + 4)
      = load16 srcm (s + 4 * x + 2) &&& 0xF800 ∧
    load16 (lcd2x_c16_pair srcm s d dp32 x dx m) (d + 4 * dx + 6)
      = load16 srcm (s + 4 * x + 2) &&& 0x001F ∧
    load16 (lcd2x_c16_pair srcm s d dp32 x dx m) (d + 4 * (dx + dp32))
      = load16 srcm (s + 4 * x) &&& 0x07E0 ∧
    load16 (lcd2x_c16_pair srcm s d dp32 x dx m) (d + 4 * (dx + dp32) + 2)
      = load16 srcm (s + 4 * x) ∧
    load16 (lcd2x_c16_pair srcm s d dp32 x dx m) (d + 4 * (dx + dp32) + 4)
      = load16 srcm (s + 4 * x + 2) &&& 0x07E0 ∧
    load16 (lcd2x_c16_pair srcm s d dp32 x dx m) (d + 4 * (dx + dp32) + 6)
      = load16 srcm (s + 4 * x + 2) := by
  unfold lcd2x_c16_pair
  rw [u32_of_lt (dx + 1) (by omega), u32_of_lt (dx + dp32) (by omega),
    u32_of_lt (dx + dp32 + 1) (by omega)]
  have a3 : d + 4 * (dx + 1) = d + 4 * dx + 4 := by omega
  have a4 : d + 4 * (dx + dp32 + 1) = d + 4 * (dx + dp32) + 4 := by omega
  have a5 : d + 4 * dx + 6 = d + 4 * dx + 4 + 2 := by omega
  have a6 : d + 4 * (dx + dp32) + 6 = d + 4 * (dx + dp32) + 4 + 2 := by omega
  rw [a3, a4, a5, a6]
  generalize d + 4 * dx = A at *
  generalize hB : d + 4 * (dx + dp32) = B at *
  have hAB : A + 8 ≤ B := by omega
  refine ⟨?_, ?_, ?_, ?_, ?_, ?_, ?_, ?_⟩
  · rw [load16_store32_frame _ _ _ _ (by omega), load16_store32_frame _ _ _ _ (by omega),
      load16_store32_frame _ _ _ _ (by omega), load16_store32_lo, bit_rb_lo, load32_mod]
  · rw [load16_store32_frame _ _ _ _ (by omega), load16_store32_frame _ _ _ _ (by omega),
      load16_store32_frame _ _ _ _ (by omega), load16_store32_hi, bit_rb_hi, load32_mod]
  · rw [load16_store32_frame _ _ _ _ (by omega), load16_store32_frame _ _ _ _ (by omega),
      load16_store32_lo, bit_rb2_lo, load32_div]
  · rw [load16_store32_frame _ _ _ _ (by omega), load16_store32_frame _ _ _ _ (by omega),
      load16_store32_hi, bit_rb2_hi, load32_div]
  · rw [load16_store32_frame _ _ _ _ (by omega), load16_store32_lo, bit_gp_lo, load32_mod]
  · rw [load16_store32_frame _ _ _ _ (by omega), load16_store32_hi, bit_gp_hi, load32_mod]
  · rw [load16_store32_lo, bit_gp2_lo, load32_div]
  · rw [load16_store32_hi, bit_gp2_hi _ (load32_lt _ _), load32_div]

theorem load16_congr (m1 m2 : Mem) (a : Nat) (h : ∀ b, a ≤ b → b < a + 2 → m1 b = m2 b) :
    load16 m1 a = load16 m2 a := by
  unfold load16 load8
  rw [h a (by omega) (by omega), h (a + 1) (by omega) (by omega)]

theorem lcd2x_block16_congr (srcm m1 m2 : Mem) (sa da dpb : Nat)
    (h : ∀ b, (da ≤ b ∧ b < da + 4) ∨ (da + dpb ≤ b ∧ b < da + dpb + 4) → m1 b = m2 b)
    (hb : lcd2x_block16 srcm m2 sa da dpb) : lcd2x_block16 srcm m1 sa da dpb := by
  unfold lcd2x_block16 at *
  rw [load16_congr m1 m2 da (fun b h1 h2 => h b (by omega)),
    load16_congr m1 m2 (da + 2) (fun b h1 h2 => h b (by omega)),
    load16_congr m1 m2 (da + dpb) (fun b h1 h2 => h b (by omega)),
    load16_congr m1 m2 (da + dpb + 2) (fun b h1 h2 => h b (by omega))]
  exact hb

theorem c16_pair_blocks (srcm : Mem) (s d dp32 x dx : Nat) (m : Mem)
    (hdx : dx + dp32 + 1 < 2 ^ 32) (hdp : 2 ≤ dp32) :
    lcd2x_block16 srcm (lcd2x_c16_pair srcm s d dp32 x dx m) (s + 4 * x) (d + 4 * dx)
      (4 * dp32) ∧
    lcd2x_block16 srcm (lcd2x_c16_pair srcm s d dp32 x dx m) (s + 4 * x + 2) (d + 4 * dx + 4)
      (4 * dp32) := by
  obtain ⟨p1, p2, p3, p4, p5, p6, p7, p8⟩ := c16_pair_pixels srcm s d dp32 x dx m hdx hdp
  unfold lcd2x_block16
  have e1 : d + 4 * dx + 4 * dp32 = d + 4 * (dx + dp32) := by omega
  have e2 : d + 4 * dx + 4 + 2 = d + 4 * dx + 6 := by omega
  have e3 : d + 4 * dx + 4 + 4 * dp32 = d + 4 * (dx + dp32) + 4 := by omega
  have e4 : d + 4 * (dx + dp32) + 4 + 2 = d + 4 * (dx + dp32) + 6 := by omega
  rw [e1, e2, e3, e4]
  exact ⟨⟨p1, p2, p5, p6⟩, ⟨p3, p4, p7, p8⟩⟩

/-- Effect of the pair loop run for `n` iterations from `x = x0`, `dx = 2 x0`. -/
theorem c16_pairs_spec (srcm : Mem) (s d dp32 : Nat) :
    ∀ (n x0 : Nat) (m : Mem), 2 * (x0 + n) ≤ dp32 → 2 * (x0 + n) + dp32 < 2 ^ 32 →
      (lcd2x_c16_pairs srcm s d dp32 n (x0, 2 * x0, m)).1 = x0 + n ∧
      (lcd2x_c16_pairs srcm s d dp32 n (x0, 2 * x0, m)).2.1 = 2 * (x0 + n) ∧
      (∀ b, (b < d + 8 * x0 ∨ d + 8 * (x0 + n) ≤ b) ∧
          (b < d + 4 * dp32 + 8 * x0 ∨ d + 4 * dp32 + 8 * (x0 + n) ≤ b) →
        (lcd2x_c16_pairs srcm s d dp32 n (x0, 2 * x0, m)).2.2 b = m b) ∧
      (∀ t, x0 ≤ t → t < x0 + n →
        lcd2x_block16 srcm (lcd2x_c16_pairs srcm s d dp32 n (x0, 2 * x0, m)).2.2
          (s + 4 * t) (d + 8 * t) (4 * dp32) ∧
        lcd2x_block16 srcm (lcd2x_c16_pairs srcm s d dp32 n (x0, 2 * x0, m)).2.2
          (s + 4 * t + 2) (d + 8 * t + 4) (4 * dp32)) := by
  intro n
  induction n with
  | zero =>
    intro x0 m _ _
    refine ⟨rfl, rfl, fun b _ => rfl, fun t h1 h2 => absurd h2 (by omega)⟩
  | succ n ih =>
    intro x0 m h1 h2
    have hstep : lcd2x_c16_pairs srcm s d dp32 (n + 1) (x0, 2 * x0, m)
        = lcd2x_c16_pairs srcm s d dp32 n
            (x0 + 1, 2 * (x0 + 1), lcd2x_c16_pair srcm s d dp32 x0 (2 * x0) m) := by
      show lcd2x_c16_pairs srcm s d dp32 n (u32 (x0 + 1), u32 (2 * x0 + 2), _) = _
      rw [u32_of_lt (x0 + 1) (by omega), u32_of_lt (2 * x0 + 2) (by omega)]
      rfl
    rw [hstep]
    obtain ⟨i1, i2, i3, i4⟩ := ih (x0 + 1) (lcd2x_c16_pair srcm s d dp32 x0 (2 * x0) m)
      (by omega) (by omega)
    refine ⟨by omega, by omega, fun b hb => ?_, fun t ht1 ht2 => ?_⟩
    · rw [i3 b (by omega)]
      exact c16_pair_frame srcm s d dp32 x0 (2 * x0) m (by omega) b (by omega)
    · by_cases ht : t = x0
      · subst ht
        obtain ⟨q1, q2⟩ := c16_pair_blocks srcm s d dp32 t (2 * t) m (by omega) (by omega)
        rw [show d + 4 * (2 * t) = d + 8 * t by omega] at q1 q2
        exact ⟨lcd2x_block16_congr _ _ _ _ _ _ (fun b hb => i3 b (by omega)) q1,
          lcd2x_block16_congr _ _ _ _ _ _ (fun b hb => i3 b (by omega)) q2⟩
      · exact i4 t (by omega) (by omega)

/-- Effect of one pass of the outer loop body of `lcd2x_c16`. -/
theorem c16_row_spec (srcm : Mem) (sw dp32 src dst : Nat) (m : Mem)
    (hdp : sw ≤ dp32) (hw : sw + dp32 < 2 ^ 32) :
    (∀ b, (b < dst ∨ dst + 4 * sw ≤ b) ∧ (b < dst + 4 * dp32 ∨ dst + 4 * dp32 + 4 * sw ≤ b) →
      lcd2x_c16_row srcm sw dp32 src dst m b = m b) ∧
    (∀ i, i < sw →
      lcd2x_block16 srcm (lcd2x_c16_row srcm sw dp32 src dst m) (src + 2 * i) (dst + 4 * i)
        (4 * dp32)) := by
  obtain ⟨r1, r2, r3, r4⟩ := c16_pairs_spec srcm src dst dp32 (sw / 2) 0 m (by omega) (by omega)
  rw [show 2 * 0 = 0 by rfl] at r1 r2 r3 r4
  unfold lcd2x_c16_row
  simp only [Nat.and_one_is_mod]
  rw [r1, r2]
  generalize (lcd2x_c16_pairs srcm src dst dp32 (sw / 2) (0, 0, m)).2.2 = mp at *
  by_cases hodd : sw % 2 ≠ 0
  · rw [if_pos hodd]
    rw [u32_of_lt ((0 + sw / 2) * 2) (by omega), u32_of_lt (2 * (0 + sw / 2) + dp32) (by omega)]
    have ex : 2 * ((0 + sw / 2) * 2) = 2 * (sw - 1) := by omega
    have ed : 4 * (2 * (0 + sw / 2)) = 4 * (sw - 1) := by omega
    have ed2 : 4 * (2 * (0 + sw / 2) + dp32) = 4 * (sw - 1) + 4 * dp32 := by omega
    rw [ex, ed, ed2]
    refine ⟨fun b hb => ?_, fun i hi => ?_⟩
    · rw [store32_frame _ _ _ _ (by omega), store32_frame _ _ _ _ (by omega)]
      exact r3 b (by omega)
    · by_cases hlast : i = sw - 1
      · subst hlast
        unfold lcd2x_block16
        have hp := load16_lt srcm (src + 2 * (sw - 1))
        have hmod : load16 srcm (src + 2 * (sw - 1)) % 65536
            = load16 srcm (src + 2 * (sw - 1)) := Nat.mod_eq_of_lt hp
        rw [show dst + 4 * (sw - 1) + 4 * dp32 = dst + (4 * (sw - 1) + 4 * dp32) by omega]
        refine ⟨?_, ?_, ?_, ?_⟩
        · rw [load16_store32_frame _ _ _ _ (by omega), load16_store32_lo, bit_rb_lo, hmod]
        · rw [load16_store32_frame _ _ _ _ (by omega), load16_store32_hi, bit_rb_hi, hmod]
        · rw [load16_store32_lo, bit_gp_lo, hmod]
        · rw [load16_store32_hi, bit_gp_hi, hmod]
      · have hi2 : i / 2 < sw / 2 := by omega
        obtain ⟨q1, q2⟩ := r4 (i / 2) (by omega) (by omega)
        refine lcd2x_block16_congr _ _ mp _ _ _ (fun b hb => ?_) ?_
        · rw [store32_frame _ _ _ _ (by omega), store32_frame _ _ _ _ (by omega)]
        · rcases Nat.mod_two_eq_zero_or_one i with h0 | h1
          · rw [show src + 2 * i = src + 4 * (i / 2) by omega,
              show dst + 4 * i = dst + 8 * (i / 2) by omega]
            exact q1
          · rw [show src + 2 * i = src + 4 * (i / 2) + 2 by omega,
              show dst + 4 * i = dst + 8 * (i / 2) + 4 by omega]
            exact q2
  · rw [if_neg hodd]
    refine ⟨fun b hb => r3 b (by omega), fun i hi => ?_⟩
    obtain ⟨q1, q2⟩ := r4 (i / 2) (by omega) (by omega)
    rcases Nat.mod_two_eq_zero_or_one i with h0 | h1
    · rw [show src + 2 * i = src + 4 * (i / 2) by omega,
        show dst + 4 * i = dst + 8 * (i / 2) by omega]
      exact q1
    · rw [show src + 2 * i = src + 4 * (i / 2) + 2 by omega,
        show dst + 4 * i = dst + 8 * (i / 2) + 4 by omega]
      exact q2

/-- Effect of the outer loop of `lcd2x_c16` for a destination pitch of
`4 * dp32` bytes: every source pixel `(i, j)` yields its 2x2 block, and bytes
outside the `2 n` written rows are untouched. -/
theorem c16_rows_spec (srcm : Mem) (sw sp dp32 : Nat) (hdp : sw ≤ dp32)
    (hw : 8 * dp32 < 2 ^ 32) :
    ∀ (n src dst : Nat) (m : Mem),
      (∀ b, (∀ r, r < 2 * n → b < dst + r * (4 * dp32) ∨ dst + r * (4 * dp32) + 4 * sw ≤ b) →
        lcd2x_c16_rows srcm sw sp (4 * dp32) dp32 n src dst m b = m b) ∧
      (∀ j i, j < n → i < sw →
        lcd2x_block16 srcm (lcd2x_c16_rows srcm sw sp (4 * dp32) dp32 n src dst m)
          (src + j * sp + 2 * i) (dst + j * (8 * dp32) + 4 * i) (4 * dp32)) := by
  intro n
  induction n with
  | zero =>
    intro src dst m
    exact ⟨fun b _ => rfl, fun j i hj _ => absurd hj (by omega)⟩
  | succ n ih =>
    intro src dst m
    have hstep : lcd2x_c16_rows srcm sw sp (4 * dp32) dp32 (n + 1) src dst m
        = lcd2x_c16_rows srcm sw sp (4 * dp32) dp32 n (src + sp) (dst + 8 * dp32)
            (lcd2x_c16_row srcm sw dp32 src dst m) := by
      show lcd2x_c16_rows srcm sw sp (4 * dp32) dp32 n (src + sp) (dst + u32 (4 * dp32 * 2)) _ = _
      rw [u32_of_lt (4 * dp32 * 2) (by omega), show 4 * dp32 * 2 = 8 * dp32 by omega]
    rw [hstep]
    obtain ⟨i1, i2⟩ := ih (src + sp) (dst + 8 * dp32) (lcd2x_c16_row srcm sw dp32 src dst m)
    obtain ⟨w1, w2⟩ := c16_row_spec srcm sw dp32 src dst m hdp (by omega)
    refine ⟨fun b hb => ?_, fun j i hj hi => ?_⟩
    · rw [i1 b (fun r hr => by
        have := hb (r + 2) (by omega)
        rw [Nat.add_mul] at this
        omega)]
      have h0 := hb 0 (by omega)
      have h1 := hb 1 (by omega)
      exact w1 b (by omega)
    · cases j with
      | zero =>
        refine lcd2x_block16_congr _ _ (lcd2x_c16_row srcm sw dp32 src dst m) _ _ _
          (fun b hb => ?_) ?_
        · exact i1 b (fun r hr => by
            have : 0 ≤ r * (4 * dp32) := Nat.zero_le _
            omega)
        · have := w2 i hi
          rw [show src + 0 * sp + 2 * i = src + 2 * i by omega,
            show dst + 0 * (8 * dp32) + 4 * i = dst + 4 * i by omega]
          exact this
      | succ j =>
        have := i2 j i (by omega) hi
        rw [show src + (j + 1) * sp + 2 * i = src + sp + j * sp + 2 * i by
            rw [Nat.add_mul]; omega,
          show dst + (j + 1) * (8 * dp32) + 4 * i = dst + 8 * dp32 + j * (8 * dp32) + 4 * i by
            rw [Nat.add_mul]; omega]
        exact this

/-! ## `lcd2x_c32` -/

theorem load32_congr (m1 m2 : Mem) (a : Nat) (h : ∀ b, a ≤ b → b < a + 4 → m1 b = m2 b) :
    load32 m1 a = load32 m2 a := by
  unfold load32 load8
  rw [h a (by omega) (by omega), h (a + 1) (by omega) (by omega),
    h (a + 2) (by omega) (by omega), h (a + 3) (by omega) (by omega)]

theorem lcd2x_block32_congr (srcm m1 m2 : Mem) (sa da dpb : Nat)
    (h : ∀ b, (da ≤ b ∧ b < da + 8) ∨ (da + dpb ≤ b ∧ b < da + dpb + 8) → m1 b = m2 b)
    (hb : lcd2x_block32 srcm m2 sa da dpb) : lcd2x_block32 srcm m1 sa da dpb := by
  unfold lcd2x_block32 at *
  rw [load32_congr m1 m2 da (fun b h1 h2 => h b (by omega)),
    load32_congr m1 m2 (da + 4) (fun b h1 h2 => h b (by omega)),
    load32_congr m1 m2 (da + dpb) (fun b h1 h2 => h b (by omega)),
    load32_congr m1 m2 (da + dpb + 4) (fun b h1 h2 => h b (by omega))]
  exact hb

theorem and_lt_two_pow_32 (p k : Nat) (hp : p < 2 ^ 32) : (p &&& k) % 2 ^ 32 = p &&& k :=
  Nat.mod_eq_of_lt (lt_of_le_of_lt Nat.and_le_left hp)

theorem c32_pixel_frame (srcm : Mem) (s d dp32 x dx : Nat) (m : Mem)
    (hdx : dx + dp32 + 1 < 2 ^ 32) (b : Nat)
    (hb : (b < d + 4 * dx ∨ d + 4 * dx + 8 ≤ b) ∧
      (b < d + 4 * (dx + dp32) ∨ d + 4 * (dx + dp32) + 8 ≤ b)) :
    lcd2x_c32_pixel srcm s d dp32 x dx m b = m b := by
  unfold lcd2x_c32_pixel
  rw [u32_of_lt (dx + 1) (by omega), u32_of_lt (dx + dp32) (by omega),
    u32_of_lt (dx + dp32 + 1) (by omega)]
  rw [store32_frame _ _ _ _ (by omega), store32_frame _ _ _ _ (by omega),
    store32_frame _ _ _ _ (by omega), store32_frame _ _ _ _ (by omega)]

theorem c32_pixel_block (srcm : Mem) (s d dp32 x dx : Nat) (m : Mem)
    (hdx : dx + dp32 + 1 < 2 ^ 32) (hdp : 2 ≤ dp32) :
    lcd2x_block32 srcm (lcd2x_c32_pixel srcm s d dp32 x dx m) (s + 4 * x) (d + 4 * dx)
      (4 * dp32) := by
  unfold lcd2x_c32_pixel lcd2x_block32
  rw [u32_of_lt (dx + 1) (by omega), u32_of_lt (dx + dp32) (by omega),
    u32_of_lt (dx + dp32 + 1) (by omega)]
  have a3 : d + 4 * (dx + 1) = d + 4 * dx + 4 := by omega
  have a2 : d + 4 * (dx + dp32) = d + 4 * dx + 4 * dp32 := by omega
  have a4 : d + 4 * (dx + dp32 + 1) = d + 4 * dx + 4 * dp32 + 4 := by omega
  rw [a3, a2, a4]
  have hp := load32_lt srcm (s + 4 * x)
  generalize load32 srcm (s + 4 * x) = pix at *
  generalize d + 4 * dx = A at *
  refine ⟨?_, ?_, ?_, ?_⟩
  · rw [load32_store32_frame _ _ _ _ (by omega), load32_store32_frame _ _ _ _ (by omega),
      load32_store32_frame _ _ _ _ (by omega), load32_store32, and_lt_two_pow_32 _ _ hp]
  · rw [load32_store32_frame _ _ _ _ (by omega), load32_store32_frame _ _ _ _ (by omega),
      load32_store32, and_lt_two_pow_32 _ _ hp]
  · rw [load32_store32_frame _ _ _ _ (by omega), load32_store32, and_lt_two_pow_32 _ _ hp]
  · rw [load32_store32, Nat.mod_eq_of_lt hp]

/-- Effect of the pixel loop of `lcd2x_c32` run for `n` iterations from
`x = x0`, `dx = 2 x0`. -/
theorem c32_pixels_spec (srcm : Mem) (s d dp32 : Nat) :
    ∀ (n x0 : Nat) (m : Mem), 2 * (x0 + n) ≤ dp32 → 2 * (x0 + n) + dp32 < 2 ^ 32 →
      (∀ b, (b < d + 8 * x0 ∨ d + 8 * (x0 + n) ≤ b) ∧
          (b < d + 4 * dp32 + 8 * x0 ∨ d + 4 * dp32 + 8 * (x0 + n) ≤ b) →
        (lcd2x_c32_pixels srcm s d dp32 n (x0, 2 * x0, m)).2.2 b = m b) ∧
      (∀ t, x0 ≤ t → t < x0 + n →
        lcd2x_block32 srcm (lcd2x_c32_pixels srcm s d dp32 n (x0, 2 * x0, m)).2.2
          (s + 4 * t) (d + 8 * t) (4 * dp32)) := by
  intro n
  induction n with
  | zero =>
    intro x0 m _ _
    refine ⟨fun b _ => rfl, fun t h1 h2 => absurd h2 (by omega)⟩
  | succ n ih =>
    intro x0 m h1 h2
    have hstep : lcd2x_c32_pixels srcm s d dp32 (n + 1) (x0, 2 * x0, m)
        = lcd2x_c32_pixels srcm s d dp32 n
            (x0 + 1, 2 * (x0 + 1), lcd2x_c32_pixel srcm s d dp32 x0 (2 * x0) m) := by
      show lcd2x_c32_pixels srcm s d dp32 n (u32 (x0 + 1), u32 (2 * x0 + 2), _) = _
      rw [u32_of_lt (x0 + 1) (by omega), u32_of_lt (2 * x0 + 2) (by omega)]
      rfl
    rw [hstep]
    obtain ⟨i3, i4⟩ := ih (x0 + 1) (lcd2x_c32_pixel srcm s d dp32 x0 (2 * x0) m)
      (by omega) (by omega)
    refine ⟨fun b hb => ?_, fun t ht1 ht2 => ?_⟩
    · rw [i3 b (by omega)]
      exact c32_pixel_frame srcm s d dp32 x0 (2 * x0) m (by omega) b (by omega)
    · by_cases ht : t = x0
      · subst ht
        have q1 := c32_pixel_block srcm s d dp32 t (2 * t) m (by omega) (by omega)
        rw [show d + 4 * (2 * t) = d + 8 * t by omega] at q1
        exact lcd2x_block32_congr _ _ _ _ _ _ (fun b hb => i3 b (by omega)) q1
      · exact i4 t (by omega) (by omega)

/-- Effect of the outer loop of `lcd2x_c32` for a destination pitch of
`4 * dp32` bytes. -/
theorem c32_rows_spec (srcm : Mem) (sw sp dp32 : Nat) (hdp : 2 * sw ≤ dp32)
    (hw : 8 * dp32 < 2 ^ 32) :
    ∀ (n src dst : Nat) (m : Mem),
      (∀ b, (∀ r, r < 2 * n → b < dst + r * (4 * dp32) ∨ dst + r * (4 * dp32) + 8 * sw ≤ b) →
        lcd2x_c32_rows srcm sw sp (4 * dp32) dp32 n src dst m b = m b) ∧
      (∀ j i, j < n → i < sw →
        lcd2x_block32 srcm (lcd2x_c32_rows srcm sw sp (4 * dp32) dp32 n src dst m)
          (src + j * sp + 4 * i) (dst + j * (8 * dp32) + 8 * i) (4 * dp32)) := by
  intro n
  induction n with
  | zero =>
    intro src dst m
    exact ⟨fun b _ => rfl, fun j i hj _ => absurd hj (by omega)⟩
  | succ n ih =>
    intro src dst m
    have hstep : lcd2x_c32_rows srcm sw sp (4 * dp32) dp32 (n + 1) src dst m
        = lcd2x_c32_rows srcm sw sp (4 * dp32) dp32 n (src + sp) (dst + 8 * dp32)
            (lcd2x_c32_pixels srcm src dst dp32 sw (0, 0, m)).2.2 := by
      show lcd2x_c32_rows srcm sw sp (4 * dp32) dp32 n (src + sp) (dst + u32 (4 * dp32 * 2)) _ = _
      rw [u32_of_lt (4 * dp32 * 2) (by omega), show 4 * dp32 * 2 = 8 * dp32 by omega]
    rw [hstep]
    obtain ⟨w1, w2⟩ := c32_pixels_spec srcm src dst dp32 sw 0 m (by omega) (by omega)
    rw [show 2 * 0 = 0 by rfl] at w1 w2
    generalize (lcd2x_c32_pixels srcm src dst dp32 sw (0, 0, m)).2.2 = mr at *
    obtain ⟨i1, i2⟩ := ih (src + sp) (dst + 8 * dp32) mr
    refine ⟨fun b hb => ?_, fun j i hj hi => ?_⟩
    · rw [i1 b (fun r hr => by
        have := hb (r + 2) (by omega)
        rw [Nat.add_mul] at this
        omega)]
      have h0 := hb 0 (by omega)
      have h1 := hb 1 (by omega)
      exact w1 b (by omega)
    · cases j with
      | zero =>
        refine lcd2x_block32_congr _ _ mr _ _ _ (fun b hb => ?_) ?_
        · exact i1 b (fun r hr => by
            have : 0 ≤ r * (4 * dp32) := Nat.zero_le _
            omega)
        · have := w2 i (by omega) (by omega)
          rw [show src + 0 * sp + 4 * i = src + 4 * i by omega,
            show dst + 0 * (8 * dp32) + 8 * i = dst + 8 * i by omega]
          exact this
      | succ j =>
        have := i2 j i (by omega) hi
        rw [show src + (j + 1) * sp + 4 * i = src + sp + j * sp + 4 * i by
            rw [Nat.add_mul]; omega,
          show dst + (j + 1) * (8 * dp32) + 8 * i = dst + 8 * dp32 + j * (8 * dp32) + 8 * i by
            rw [Nat.add_mul]; omega]
        exact this

/-! ## The kernels with a caller-supplied destination pitch -/

/-- Kernel `lcd2x_c16` with a non-zero destination pitch `dp` that is a multiple of 4,
at least the tight row size and with `dp * 2` representable. -/
theorem lcd2x_c16_pitched (srcm : Mem) (src : Nat) (dstm : Mem) (dst sw sh sp dp : Nat)
    (hsw : 1 ≤ sw) (hsh : 1 ≤ sh) (h4 : dp % 4 = 0) (ht : 4 * sw ≤ dp)
    (hw : 2 * dp < 2 ^ 32) :
    (∀ b, (∀ r, r < 2 * sh → b < dst + r * dp ∨ dst + r * dp + 4 * sw ≤ b) →
      lcd2x_c16 srcm src dstm dst sw sh sp dp b = dstm b) ∧
    (∀ j i, j < sh → i < sw →
      lcd2x_block16 srcm (lcd2x_c16 srcm src dstm dst sw sh sp dp)
        (src + j * (if sp = 0 then 2 * sw else sp) + 2 * i) (dst + j * (2 * dp) + 4 * i) dp) := by
  obtain ⟨dp32, rfl⟩ : ∃ k, dp = 4 * k := ⟨dp / 4, by omega⟩
  unfold lcd2x_c16
  rw [if_neg (by omega), u32_of_lt (sw * 2) (by omega)]
  simp only []
  rw [if_neg (by omega : ¬ 4 * dp32 = 0),
    show (4 * dp32) >>> 2 = dp32 by rw [Nat.shiftRight_eq_div_pow]; omega,
    show sw * 2 = 2 * sw by omega, show 2 * (4 * dp32) = 8 * dp32 by omega]
  exact c16_rows_spec srcm sw _ dp32 (by omega) (by omega) sh src dst dstm

/-- Kernel `lcd2x_c32` with a non-zero destination pitch `dp` that is a multiple of 4,
at least the tight row size and with `dp * 2` representable. -/
theorem lcd2x_c32_pitched (srcm : Mem) (src : Nat) (dstm : Mem) (dst sw sh sp dp : Nat)
    (hsw : 1 ≤ sw) (hsh : 1 ≤ sh) (h4 : dp % 4 = 0) (ht : 8 * sw ≤ dp)
    (hw : 2 * dp < 2 ^ 32) :
    (∀ b, (∀ r, r < 2 * sh → b < dst + r * dp ∨ dst + r * dp + 8 * sw ≤ b) →
      lcd2x_c32 srcm src dstm dst sw sh sp dp b = dstm b) ∧
    (∀ j i, j < sh → i < sw →
      lcd2x_block32 srcm (lcd2x_c32 srcm src dstm dst sw sh sp dp)
        (src + j * (if sp = 0 then 4 * sw else sp) + 4 * i) (dst + j * (2 * dp) + 8 * i) dp) := by
  obtain ⟨dp32, rfl⟩ : ∃ k, dp = 4 * k := ⟨dp / 4, by omega⟩
  unfold lcd2x_c32
  rw [if_neg (by omega), u32_of_lt (sw * 4) (by omega)]
  simp only []
  rw [if_neg (by omega : ¬ 4 * dp32 = 0),
    show (4 * dp32) >>> 2 = dp32 by rw [Nat.shiftRight_eq_div_pow]; omega,
    show sw * 4 = 4 * sw by omega, show 2 * (4 * dp32) = 8 * dp32 by omega]
  exact c32_rows_spec srcm sw _ dp32 (by omega) (by omega) sh src dst dstm

/-- Passing `dp = 0` selects the tight pitch `4 * sw` in `lcd2x_c16`. -/
theorem lcd2x_c16_dp_zero (srcm : Mem) (src : Nat) (dstm : Mem) (dst sw sh sp : Nat)
    (hw : 4 * sw < 2 ^ 32) :
    lcd2x_c16 srcm src dstm dst sw sh sp 0 = lcd2x_c16 srcm src dstm dst sw sh sp (4 * sw) := by
  unfold lcd2x_c16
  by_cases h0 : sw = 0 ∨ sh = 0
  · rw [if_pos h0, if_pos h0]
  · rw [if_neg h0, if_neg h0]
    simp only []
    rw [u32_of_lt (sw * 2) (by omega), u32_of_lt (sw * 2 * 2) (by omega),
      if_pos trivial, if_neg (by omega : ¬ 4 * sw = 0), show sw * 2 * 2 = 4 * sw by omega]

/-- Passing `dp = 0` selects the tight pitch `8 * sw` in `lcd2x_c32`. -/
theorem lcd2x_c32_dp_zero (srcm : Mem) (src : Nat) (dstm : Mem) (dst sw sh sp : Nat)
    (hw : 8 * sw < 2 ^ 32) :
    lcd2x_c32 srcm src dstm dst sw sh sp 0 = lcd2x_c32 srcm src dstm dst sw sh sp (8 * sw) := by
  unfold lcd2x_c32
  by_cases h0 : sw = 0 ∨ sh = 0
  · rw [if_pos h0, if_pos h0]
  · rw [if_neg h0, if_neg h0]
    simp only []
    rw [u32_of_lt (sw * 4) (by omega), u32_of_lt (sw * 4 * 2) (by omega),
      if_pos trivial, if_neg (by omega : ¬ 8 * sw = 0), show sw * 4 * 2 = 8 * sw by omega]

/-- Claim C8 (amended). With tight pitches (`sp = dp = 0`) and a row size whose
double fits 32 bits (`8·sw < 2^32` for `lcd2x_c16`, `16·sw < 2^32` for
`lcd2x_c32`), for every `sw ≥ 1` (even or odd), `sh ≥ 1` and every source
pixel `p` at column `i`, row `j`, the 2x2 destination block at columns `2i`,
`2i+1` and rows `2j`, `2j+1` is: RGB565 `[p & 0xF800, p & 0x001F; p & 0x07E0, p]`,
XRGB8888 `[p & 0x00FF0000, p & 0x000000FF; p & 0x0000FF00, p]`; in particular
the 565 pixel `0xFFFF` gives `[0xF800, 0x001F; 0x07E0, 0xFFFF]`. -/
theorem C8_lcd2x_tight_blocks (srcm : Mem) (src : Nat) (dstm : Mem) (dst sw sh i j : Nat)
    (hi : i < sw) (hj : j < sh) :
    (8 * sw < 2 ^ 32 →
      load16 (lcd2x_c16 srcm src dstm dst sw sh 0 0) (dst + ((2 * j) * (2 * sw) + 2 * i) * 2)
        = load16 srcm (src + (j * sw + i) * 2) &&& 0xF800 ∧
      load16 (lcd2x_c16 srcm src dstm dst sw sh 0 0) (dst + ((2 * j) * (2 * sw) + (2 * i + 1)) * 2)
        = load16 srcm (src + (j * sw + i) * 2) &&& 0x001F ∧
      load16 (lcd2x_c16 srcm src dstm dst sw sh 0 0) (dst + ((2 * j + 1) * (2 * sw) + 2 * i) * 2)
        = load16 srcm (src + (j * sw + i) * 2) &&& 0x07E0 ∧
      load16 (lcd2x_c16 srcm src dstm dst sw sh 0 0)
          (dst + ((2 * j + 1) * (2 * sw) + (2 * i + 1)) * 2)
        = load16 srcm (src + (j * sw + i) * 2)) ∧
    (16 * sw < 2 ^ 32 →
      load32 (lcd2x_c32 srcm src dstm dst sw sh 0 0) (dst + ((2 * j) * (2 * sw) + 2 * i) * 4)
        = load32 srcm (src + (j * sw + i) * 4) &&& 0x00FF0000 ∧
      load32 (lcd2x_c32 srcm src dstm dst sw sh 0 0) (dst + ((2 * j) * (2 * sw) + (2 * i + 1)) * 4)
        = load32 srcm (src + (j * sw + i) * 4) &&& 0x000000FF ∧
      load32 (lcd2x_c32 srcm src dstm dst sw sh 0 0) (dst + ((2 * j + 1) * (2 * sw) + 2 * i) * 4)
        = load32 srcm (src + (j * sw + i) * 4) &&& 0x0000FF00 ∧
      load32 (lcd2x_c32 srcm src dstm dst sw sh 0 0)
          (dst + ((2 * j + 1) * (2 * sw) + (2 * i + 1)) * 4)
        = load32 srcm (src + (j * sw + i) * 4)) ∧
    (8 * sw < 2 ^ 32 → load16 srcm (src + (j * sw + i) * 2) = 0xFFFF →
      load16 (lcd2x_c16 srcm src dstm dst sw sh 0 0) (dst + ((2 * j) * (2 * sw) + 2 * i) * 2)
        = 0xF800 ∧
      load16 (lcd2x_c16 srcm src dstm dst sw sh 0 0) (dst + ((2 * j) * (2 * sw) + (2 * i + 1)) * 2)
        = 0x001F ∧
      load16 (lcd2x_c16 srcm src dstm dst sw sh 0 0) (dst + ((2 * j + 1) * (2 * sw) + 2 * i) * 2)
        = 0x07E0 ∧
      load16 (lcd2x_c16 srcm src dstm dst sw sh 0 0)
          (dst + ((2 * j + 1) * (2 * sw) + (2 * i + 1)) * 2)
        = 0xFFFF) := by
  have key16 : 8 * sw < 2 ^ 32 →
      lcd2x_block16 srcm (lcd2x_c16 srcm src dstm dst sw sh 0 0) (src + (j * sw + i) * 2)
        (dst + ((2 * j) * (2 * sw) + 2 * i) * 2) (4 * sw) := by
    intro h8
    have hb := (lcd2x_c16_pitched srcm src dstm dst sw sh 0 (4 * sw) (by omega) (by omega)
      (by omega) (by omega) (by omega)).2 j i hj hi
    rw [← lcd2x_c16_dp_zero srcm src dstm dst sw sh 0 (by omega), if_pos rfl] at hb
    rw [show src + (j * sw + i) * 2 = src + j * (2 * sw) + 2 * i by ring,
      show dst + ((2 * j) * (2 * sw) + 2 * i) * 2 = dst + j * (2 * (4 * sw)) + 4 * i by ring]
    exact hb
  have a1 : dst + ((2 * j) * (2 * sw) + (2 * i + 1)) * 2
      = dst + ((2 * j) * (2 * sw) + 2 * i) * 2 + 2 := by ring
  have a2 : dst + ((2 * j + 1) * (2 * sw) + 2 * i) * 2
      = dst + ((2 * j) * (2 * sw) + 2 * i) * 2 + 4 * sw := by ring
  have a3 : dst + ((2 * j + 1) * (2 * sw) + (2 * i + 1)) * 2
      = dst + ((2 * j) * (2 * sw) + 2 * i) * 2 + 4 * sw + 2 := by ring
  refine ⟨fun h8 => ?_, fun h16 => ?_, fun h8 hp => ?_⟩
  · rw [a1, a2, a3]
    exact key16 h8
  · have hb := (lcd2x_c32_pitched srcm src dstm dst sw sh 0 (8 * sw) (by omega) (by omega)
      (by omega) (by omega) (by omega)).2 j i hj hi
    rw [← lcd2x_c32_dp_zero srcm src dstm dst sw sh 0 (by omega), if_pos rfl] at hb
    rw [show src + (j * sw + i) * 4 = src + j * (4 * sw) + 4 * i by ring,
      show dst + ((2 * j) * (2 * sw) + 2 * i) * 4 = dst + j * (2 * (8 * sw)) + 8 * i by ring,
      show dst + ((2 * j) * (2 * sw) + (2 * i + 1)) * 4
        = dst + j * (2 * (8 * sw)) + 8 * i + 4 by ring,
      show dst + ((2 * j + 1) * (2 * sw) + 2 * i) * 4
        = dst + j * (2 * (8 * sw)) + 8 * i + 8 * sw by ring,
      show dst + ((2 * j + 1) * (2 * sw) + (2 * i + 1)) * 4
        = dst + j * (2 * (8 * sw)) + 8 * i + 8 * sw + 4 by ring]
    exact hb
  · have hb := key16 h8
    unfold lcd2x_block16 at hb
    rw [hp] at hb
    rw [a1, a2, a3]
    exact hb

/-! ## `lcd2x_c16` when the tight pitch wraps -/

/-- With `dp32 = 0` later iterations of the pair loop write only above the
words of the earlier ones. -/
theorem c16_pairs_low_frame (srcm : Mem) (s d : Nat) :
    ∀ (n x0 : Nat) (m : Mem) (b : Nat), 2 * (x0 + n) < 2 ^ 32 → b < d + 8 * x0 →
      (lcd2x_c16_pairs srcm s d 0 n (x0, 2 * x0, m)).2.2 b = m b := by
  intro n
  induction n with
  | zero =>
    intro x0 m b _ _
    rfl
  | succ n ih =>
    intro x0 m b h1 h2
    have hstep : lcd2x_c16_pairs srcm s d 0 (n + 1) (x0, 2 * x0, m)
        = lcd2x_c16_pairs srcm s d 0 n
            (x0 + 1, 2 * (x0 + 1), lcd2x_c16_pair srcm s d 0 x0 (2 * x0) m) := by
      show lcd2x_c16_pairs srcm s d 0 n (u32 (x0 + 1), u32 (2 * x0 + 2), _) = _
      rw [u32_of_lt (x0 + 1) (by omega), u32_of_lt (2 * x0 + 2) (by omega)]
      rfl
    rw [hstep, ih (x0 + 1) _ b (by omega) (by omega)]
    exact c16_pair_frame srcm s d 0 x0 (2 * x0) m (by omega) b (by omega)

/-- For `sw = 2^30` the tight pitch `4·sw` wraps to 0, both output rows of a
block land on the same words, and the top-left pixel ends up as `p & 0x07E0`. -/
theorem c16_wrapped_pitch (srcm : Mem) (src : Nat) (dstm : Mem) (dst sw : Nat)
    (hsw : sw = 2 ^ 30) :
    load16 (lcd2x_c16 srcm src dstm dst sw 1 0 0) dst = load16 srcm src &&& 0x07E0 := by
  have e0 : lcd2x_c16 srcm src dstm dst sw 1 0 0
      = (lcd2x_c16_pairs srcm src dst 0 (sw / 2) (0, 0, dstm)).2.2 := by
    unfold lcd2x_c16
    rw [if_neg (by omega)]
    simp only []
    have w1 : u32 (sw * 2) = 2 ^ 31 := by unfold u32; omega
    have w2 : u32 (2 ^ 31 * 2) = 0 := by decide
    rw [w1, w2]
    show lcd2x_c16_row srcm sw 0 src dst dstm = _
    unfold lcd2x_c16_row
    simp only [Nat.and_one_is_mod]
    rw [if_neg (by omega)]
  obtain ⟨k, hk⟩ : ∃ k, sw / 2 = k + 1 := ⟨sw / 2 - 1, by omega⟩
  have e1 : lcd2x_c16_pairs srcm src dst 0 (k + 1) (0, 2 * 0, dstm)
      = lcd2x_c16_pairs srcm src dst 0 k
          (0 + 1, 2 * (0 + 1), lcd2x_c16_pair srcm src dst 0 0 0 dstm) := rfl
  rw [e0, hk, show ((0 : Nat), (0 : Nat), dstm) = (0, 2 * 0, dstm) by rfl, e1]
  rw [load16_congr _ (lcd2x_c16_pair srcm src dst 0 0 0 dstm) dst
    (fun b hb1 hb2 => c16_pairs_low_frame srcm src dst k (0 + 1) _ b (by omega) (by omega))]
  unfold lcd2x_c16_pair
  have z1 : u32 (0 + 0) = 0 := by decide
  have z2 : u32 (0 + 1) = 1 := by decide
  rw [z1, z2]
  simp only [Nat.mul_zero, Nat.add_zero, Nat.mul_one]
  rw [load16_store32_frame _ _ _ _ (by omega), load16_store32_lo, bit_gp_lo, load32_mod]

/-- Counterexample to C8 as stated: for `sw = 2^30`, `sh = 1` the top-left
pixel of the block of the white source pixel `(0, 0)` is `0x07E0`, not
`0xFFFF & 0xF800 = 0xF800`. -/
theorem C8_counterexample :
    load16 src_white (0 + (0 * 2 ^ 30 + 0) * 2) = 0xFFFF ∧
    ¬ (load16 (lcd2x_c16 src_white 0 dst_zero 0 (2 ^ 30) 1 0 0)
          (0 + ((2 * 0) * (2 * 2 ^ 30) + 2 * 0) * 2)
        = load16 src_white (0 + (0 * 2 ^ 30 + 0) * 2) &&& 0xF800) := by
  refine ⟨by decide, ?_⟩
  rw [show 0 + ((2 * 0) * (2 * 2 ^ 30) + 2 * 0) * 2 = 0 by norm_num,
    show 0 + (0 * 2 ^ 30 + 0) * 2 = 0 by norm_num,
    c16_wrapped_pitch src_white 0 dst_zero 0 (2 ^ 30) rfl]
  decide

/-- Witness for C8 (amended): a 1x1 white source. -/
theorem C8_witness :
    (0 < 1 ∧ 0 < 1) ∧
    ((8 * 1 < 2 ^ 32 →
      load16 (lcd2x_c16 src_white 0 dst_zero 0 1 1 0 0) (0 + ((2 * 0) * (2 * 1) + 2 * 0) * 2)
        = load16 src_white (0 + (0 * 1 + 0) * 2) &&& 0xF800 ∧
      load16 (lcd2x_c16 src_white 0 dst_zero 0 1 1 0 0) (0 + ((2 * 0) * (2 * 1) + (2 * 0 + 1)) * 2)
        = load16 src_white (0 + (0 * 1 + 0) * 2) &&& 0x001F ∧
      load16 (lcd2x_c16 src_white 0 dst_zero 0 1 1 0 0) (0 + ((2 * 0 + 1) * (2 * 1) + 2 * 0) * 2)
        = load16 src_white (0 + (0 * 1 + 0) * 2) &&& 0x07E0 ∧
      load16 (lcd2x_c16 src_white 0 dst_zero 0 1 1 0 0)
          (0 + ((2 * 0 + 1) * (2 * 1) + (2 * 0 + 1)) * 2)
        = load16 src_white (0 + (0 * 1 + 0) * 2)) ∧
    (16 * 1 < 2 ^ 32 →
      load32 (lcd2x_c32 src_white 0 dst_zero 0 1 1 0 0) (0 + ((2 * 0) * (2 * 1) + 2 * 0) * 4)
        = load32 src_white (0 + (0 * 1 + 0) * 4) &&& 0x00FF0000 ∧
      load32 (lcd2x_c32 src_white 0 dst_zero 0 1 1 0 0) (0 + ((2 * 0) * (2 * 1) + (2 * 0 + 1)) * 4)
        = load32 src_white (0 + (0 * 1 + 0) * 4) &&& 0x000000FF ∧
      load32 (lcd2x_c32 src_white 0 dst_zero 0 1 1 0 0) (0 + ((2 * 0 + 1) * (2 * 1) + 2 * 0) * 4)
        = load32 src_white (0 + (0 * 1 + 0) * 4) &&& 0x0000FF00 ∧
      load32 (lcd2x_c32 src_white 0 dst_zero 0 1 1 0 0)
          (0 + ((2 * 0 + 1) * (2 * 1) + (2 * 0 + 1)) * 4)
        = load32 src_white (0 + (0 * 1 + 0) * 4)) ∧
    (8 * 1 < 2 ^ 32 → load16 src_white (0 + (0 * 1 + 0) * 2) = 0xFFFF →
      load16 (lcd2x_c16 src_white 0 dst_zero 0 1 1 0 0) (0 + ((2 * 0) * (2 * 1) + 2 * 0) * 2)
        = 0xF800 ∧
      load16 (lcd2x_c16 src_white 0 dst_zero 0 1 1 0 0) (0 + ((2 * 0) * (2 * 1) + (2 * 0 + 1)) * 2)
        = 0x001F ∧
      load16 (lcd2x_c16 src_white 0 dst_zero 0 1 1 0 0) (0 + ((2 * 0 + 1) * (2 * 1) + 2 * 0) * 2)
        = 0x07E0 ∧
      load16 (lcd2x_c16 src_white 0 dst_zero 0 1 1 0 0)
          (0 + ((2 * 0 + 1) * (2 * 1) + (2 * 0 + 1)) * 2)
        = 0xFFFF)) :=
  ⟨by decide, C8_lcd2x_tight_blocks src_white 0 dst_zero 0 1 1 0 0 (by decide) (by decide)⟩

/-- Evaluation of `lcd2x_c16` on a single white RGB565 pixel. -/
theorem lcd2x_c16_white_pixel :
    load16 (lcd2x_c16 src_white 0 dst_zero 0 1 1 0 0) 0 = 0xF800 ∧
    load16 (lcd2x_c16 src_white 0 dst_zero 0 1 1 0 0) 2 = 0x001F ∧
    load16 (lcd2x_c16 src_white 0 dst_zero 0 1 1 0 0) 4 = 0x07E0 ∧
    load16 (lcd2x_c16 src_white 0 dst_zero 0 1 1 0 0) 6 = 0xFFFF := by
  decide

/-! ## Destination pitch -/

/-- Claim C9 (amended). `lcd2x_c16` and `lcd2x_c32` respect a caller-supplied
destination pitch that is word aligned: for every `sw, sh ≥ 1` and every
non-zero `dp` that is a multiple of 4, at least the tight output row size
(`2·sw` pixels) and with `dp·2 < 2^32`, destination row `r` (`0 ≤ r < 2·sh`)
starts at byte offset `r·dp` from `dst` and carries the same pixel values as in
the tight-packed case, and `dp = 0` behaves exactly as
`dp = 2·sw·bytesPerPixel`. -/
theorem C9_lcd2x_respects_aligned_pitch (srcm : Mem) (src : Nat) (dstm : Mem)
    (dst sw sh sp dp : Nat) (hsw : 1 ≤ sw) (hsh : 1 ≤ sh) (_hdp : dp ≠ 0)
    (h4 : dp % 4 = 0) (hw : dp * 2 < 2 ^ 32) :
    (4 * sw ≤ dp →
      (∀ r c, r < 2 * sh → c < 2 * sw →
        load16 (lcd2x_c16 srcm src dstm dst sw sh sp dp) (dst + r * dp + 2 * c)
          = load16 (lcd2x_c16 srcm src dstm dst sw sh sp 0) (dst + r * (4 * sw) + 2 * c)) ∧
      lcd2x_c16 srcm src dstm dst sw sh sp 0
        = lcd2x_c16 srcm src dstm dst sw sh sp (2 * sw * 2)) ∧
    (8 * sw ≤ dp →
      (∀ r c, r < 2 * sh → c < 2 * sw →
        load32 (lcd2x_c32 srcm src dstm dst sw sh sp dp) (dst + r * dp + 4 * c)
          = load32 (lcd2x_c32 srcm src dstm dst sw sh sp 0) (dst + r * (8 * sw) + 4 * c)) ∧
      lcd2x_c32 srcm src dstm dst sw sh sp 0
        = lcd2x_c32 srcm src dstm dst sw sh sp (2 * sw * 4)) := by
  refine ⟨fun ht => ⟨fun r c hr hc => ?_, ?_⟩, fun ht => ⟨fun r c hr hc => ?_, ?_⟩⟩
  · obtain ⟨p1, p2⟩ := lcd2x_c16_pitched srcm src dstm dst sw sh sp dp hsw hsh h4 ht (by omega)
    obtain ⟨t1, t2⟩ := lcd2x_c16_pitched srcm src dstm dst sw sh sp (4 * sw) hsw hsh (by omega)
      (by omega) (by omega)
    rw [lcd2x_c16_dp_zero srcm src dstm dst sw sh sp (by omega)]
    have hp := p2 (r / 2) (c / 2) (by omega) (by omega)
    have htt := t2 (r / 2) (c / 2) (by omega) (by omega)
    unfold lcd2x_block16 at hp htt
    obtain ⟨hp1, hp2, hp3, hp4⟩ := hp
    obtain ⟨ht1, ht2, ht3, ht4⟩ := htt
    obtain ⟨j, rfl | rfl⟩ : ∃ j, r = 2 * j ∨ r = 2 * j + 1 := ⟨r / 2, by omega⟩ <;>
    obtain ⟨i, rfl | rfl⟩ : ∃ i, c = 2 * i ∨ c = 2 * i + 1 := ⟨c / 2, by omega⟩
    · rw [show 2 * j / 2 = j by omega, show 2 * i / 2 = i by omega] at *
      rw [show dst + 2 * j * dp + 2 * (2 * i) = dst + j * (2 * dp) + 4 * i by ring,
        show dst + 2 * j * (4 * sw) + 2 * (2 * i) = dst + j * (2 * (4 * sw)) + 4 * i by ring]
      exact hp1.trans ht1.symm
    · rw [show (2 * i + 1) / 2 = i by omega, show 2 * j / 2 = j by omega] at *
      rw [show dst + 2 * j * dp + 2 * (2 * i + 1) = dst + j * (2 * dp) + 4 * i + 2 by ring,
        show dst + 2 * j * (4 * sw) + 2 * (2 * i + 1)
          = dst + j * (2 * (4 * sw)) + 4 * i + 2 by ring]
      exact hp2.trans ht2.symm
    · rw [show (2 * j + 1) / 2 = j by omega, show 2 * i / 2 = i by omega] at *
      rw [show dst + (2 * j + 1) * dp + 2 * (2 * i) = dst + j * (2 * dp) + 4 * i + dp by ring,
        show dst + (2 * j + 1) * (4 * sw) + 2 * (2 * i)
          = dst + j * (2 * (4 * sw)) + 4 * i + 4 * sw by ring]
      exact hp3.trans ht3.symm
    · rw [show (2 * j + 1) / 2 = j by omega, show (2 * i + 1) / 2 = i by omega] at *
      rw [show dst + (2 * j + 1) * dp + 2 * (2 * i + 1)
          = dst + j * (2 * dp) + 4 * i + dp + 2 by ring,
        show dst + (2 * j + 1) * (4 * sw) + 2 * (2 * i + 1)
          = dst + j * (2 * (4 * sw)) + 4 * i + 4 * sw + 2 by ring]
      exact hp4.trans ht4.symm
  · rw [show 2 * sw * 2 = 4 * sw by omega]
    exact lcd2x_c16_dp_zero srcm src dstm dst sw sh sp (by omega)
  · obtain ⟨p1, p2⟩ := lcd2x_c32_pitched srcm src dstm dst sw sh sp dp hsw hsh h4 ht (by omega)
    obtain ⟨t1, t2⟩ := lcd2x_c32_pitched srcm src dstm dst sw sh sp (8 * sw) hsw hsh (by omega)
      (by omega) (by omega)
    rw [lcd2x_c32_dp_zero srcm src dstm dst sw sh sp (by omega)]
    have hp := p2 (r / 2) (c / 2) (by omega) (by omega)
    have htt := t2 (r / 2) (c / 2) (by omega) (by omega)
    unfold lcd2x_block32 at hp htt
    obtain ⟨hp1, hp2, hp3, hp4⟩ := hp
    obtain ⟨ht1, ht2, ht3, ht4⟩ := htt
    obtain ⟨j, rfl | rfl⟩ : ∃ j, r = 2 * j ∨ r = 2 * j + 1 := ⟨r / 2, by omega⟩ <;>
    obtain ⟨i, rfl | rfl⟩ : ∃ i, c = 2 * i ∨ c = 2 * i + 1 := ⟨c / 2, by omega⟩
    · rw [show 2 * j / 2 = j by omega, show 2 * i / 2 = i by omega] at *
      rw [show dst + 2 * j * dp + 4 * (2 * i) = dst + j * (2 * dp) + 8 * i by ring,
        show dst + 2 * j * (8 * sw) + 4 * (2 * i) = dst + j * (2 * (8 * sw)) + 8 * i by ring]
      exact hp1.trans ht1.symm
    · rw [show (2 * i + 1) / 2 = i by omega, show 2 * j / 2 = j by omega] at *
      rw [show dst + 2 * j * dp + 4 * (2 * i + 1) = dst + j * (2 * dp) + 8 * i + 4 by ring,
        show dst + 2 * j * (8 * sw) + 4 * (2 * i + 1)
          = dst + j * (2 * (8 * sw)) + 8 * i + 4 by ring]
      exact hp2.trans ht2.symm
    · rw [show (2 * j + 1) / 2 = j by omega, show 2 * i / 2 = i by omega] at *
      rw [show dst + (2 * j + 1) * dp + 4 * (2 * i) = dst + j * (2 * dp) + 8 * i + dp by ring,
        show dst + (2 * j + 1) * (8 * sw) + 4 * (2 * i)
          = dst + j * (2 * (8 * sw)) + 8 * i + 8 * sw by ring]
      exact hp3.trans ht3.symm
    · rw [show (2 * j + 1) / 2 = j by omega, show (2 * i + 1) / 2 = i by omega] at *
      rw [show dst + (2 * j + 1) * dp + 4 * (2 * i + 1)
          = dst + j * (2 * dp) + 8 * i + dp + 4 by ring,
        show dst + (2 * j + 1) * (8 * sw) + 4 * (2 * i + 1)
          = dst + j * (2 * (8 * sw)) + 8 * i + 8 * sw + 4 by ring]
      exact hp4.trans ht4.symm
  · rw [show 2 * sw * 4 = 8 * sw by omega]
    exact lcd2x_c32_dp_zero srcm src dstm dst sw sh sp (by omega)

/-- Counterexample to C9 as stated: with `sw = sh = 1` and `dp = 6` (not a
multiple of 4) the second output row of `lcd2x_c16` is not found at byte
offset `1·dp = 6`: the pixel there is `0xFFFF`, the tight run has `0x07E0`. -/
theorem C9_counterexample :
    (1 ≤ 1 ∧ 6 ≠ 0 ∧ 2 * 1 * 2 ≤ 6) ∧
    ¬ (load16 (lcd2x_c16 src_white 0 dst_zero 0 1 1 0 6) (0 + 1 * 6 + 2 * 0)
        = load16 (lcd2x_c16 src_white 0 dst_zero 0 1 1 0 0) (0 + 1 * (4 * 1) + 2 * 0)) := by
  decide

/-- Witness for C9 (amended): a 1x1 source written with pitch 16. -/
theorem C9_witness :
    (1 ≤ 1 ∧ 1 ≤ 1 ∧ 16 ≠ 0 ∧ 16 % 4 = 0 ∧ 16 * 2 < 2 ^ 32) ∧
    (
    (4 * 1 ≤ 16 →
      (∀ r c, r < 2 * 1 → c < 2 * 1 →
        load16 (lcd2x_c16 src_white 0 dst_zero 0 1 1 0 16) (0 + r * 16 + 2 * c)
          = load16 (lcd2x_c16 src_white 0 dst_zero 0 1 1 0 0) (0 + r * (4 * 1) + 2 * c)) ∧
      lcd2x_c16 src_white 0 dst_zero 0 1 1 0 0
        = lcd2x_c16 src_white 0 dst_zero 0 1 1 0 (2 * 1 * 2)) ∧
    (8 * 1 ≤ 16 →
      (∀ r c, r < 2 * 1 → c < 2 * 1 →
        load32 (lcd2x_c32 src_white 0 dst_zero 0 1 1 0 16) (0 + r * 16 + 4 * c)
          = load32 (lcd2x_c32 src_white 0 dst_zero 0 1 1 0 0) (0 + r * (8 * 1) + 4 * c)) ∧
      lcd2x_c32 src_white 0 dst_zero 0 1 1 0 0
        = lcd2x_c32 src_white 0 dst_zero 0 1 1 0 (2 * 1 * 4))) :=
  ⟨by decide, C9_lcd2x_respects_aligned_pitch src_white 0 dst_zero 0 1 1 0 16
    (by decide) (by decide) (by decide) (by decide) (by decide)⟩

/-! ## Multiplier selection -/

/-- Counterexample to C11 as stated: content 256x224 with integer scaling gets
a 512x448 frame and a 2x kernel, not 1024x896 and a 4x kernel. -/
theorem C11_counterexample :
    ((vid_init true true).scale_integer = true ∨ (vid_init true true).softfilter_type
        = dingux_rs90_softfilter_type.DINGUX_RS90_SOFTFILTER_POINT) ∧
    ¬ ((sdl_miyoomini_set_output env_ok (vid_init true true) fb_ramp 256 224 false).1.frame_width
          = 1024 ∧
       (sdl_miyoomini_set_output env_ok (vid_init true true) fb_ramp 256 224 false).1.frame_height
          = 896 ∧
       (sdl_miyoomini_set_output env_ok (vid_init true true) fb_ramp 256 224 false).1.scale_func
          = scale_kernel.scale4x_n16) := by
  decide

/-- Claim C11 (amended). Content 256x224 with multiplier selection enabled
(`scale_integer = true` or `softfilter_type = POINT`): the height 224 exceeds
the 4x bound 192, so `sdl_miyoomini_set_output` selects pre-scale multiplier 2,
that is `frame_width = 512`, `frame_height = 448` and a 2x kernel. -/
theorem C11_scenario_256x224 (env : gfx_env) (vid : sdl_miyoomini_video) (fb : Mem)
    (rgb32 : Bool)
    (hen : vid.scale_integer = true ∨
      vid.softfilter_type = dingux_rs90_softfilter_type.DINGUX_RS90_SOFTFILTER_POINT) :
    scale_mul vid 256 224 = 2 ∧
    (sdl_miyoomini_set_output env vid fb 256 224 rgb32).1.frame_width = 512 ∧
    (sdl_miyoomini_set_output env vid fb 256 224 rgb32).1.frame_height = 448 ∧
    (sdl_miyoomini_set_output env vid fb 256 224 rgb32).1.scale_func
      = (if rgb32 then scale_kernel.scale2x_n32 else scale_kernel.scale2x_n16) := by
  have hsm : scale_mul vid 256 224 = 2 := by
    unfold scale_mul
    rw [if_pos hen]
    decide
  rw [set_output_fst]
  simp only [hsm]
  exact ⟨trivial, by decide, by decide, by simp⟩

/-- Witness for C11 (amended): integer scaling, 32-bit colour. -/
theorem C11_witness :
    ((vid_init true true).scale_integer = true ∨ (vid_init true true).softfilter_type
        = dingux_rs90_softfilter_type.DINGUX_RS90_SOFTFILTER_POINT) ∧
    (scale_mul (vid_init true true) 256 224 = 2 ∧
    (sdl_miyoomini_set_output env_ok (vid_init true true) fb_ramp 256 224 true).1.frame_width = 512 ∧
    (sdl_miyoomini_set_output env_ok (vid_init true true) fb_ramp 256 224 true).1.frame_height = 448 ∧
    (sdl_miyoomini_set_output env_ok (vid_init true true) fb_ramp 256 224 true).1.scale_func
      = (if true then scale_kernel.scale2x_n32 else scale_kernel.scale2x_n16)) :=
  ⟨Or.inl rfl, C11_scenario_256x224 env_ok (vid_init true true) fb_ramp true (Or.inl rfl)⟩

theorem mul_eq_min (w h : Nat) : mul w h = min ((640 <<< 16) / w) ((480 <<< 16) / h) := by
  unfold mul xmul ymul
  rw [shl_w, shl_h, show (640 : Nat) <<< 16 = 41943040 by decide,
    show (480 : Nat) <<< 16 = 31457280 by decide]
  split_ifs <;> omega

/-- Claim C14. Multiplier selection of `sdl_miyoomini_set_output` for content
`content_w, content_h ≥ 1` (32-bit values), with
`mul = min((640<<16)/content_w, (480<<16)/content_h)`: `scale_mul = 4` exactly
when selection is enabled (`scale_integer` or `softfilter_type = POINT`) and
`content_w ≤ 256`, `content_h ≤ 192`; `scale_mul = 2` exactly when it is
enabled, the 4x condition fails and `content_w ≤ 512`, `content_h ≤ 384`;
`scale_mul = 1` otherwise.  The fixed-point tests `mul ≥ (640<<16)/256` and
`mul ≥ (640<<16)/512` coincide with these bounds, the frame is the content size
times `scale_mul`, and the kernel is the one for `(scale_mul, rgb32)`. -/
theorem C14_multiplier_selection (env : gfx_env) (vid : sdl_miyoomini_video) (fb : Mem)
    (content_w content_h : Nat) (rgb32 : Bool)
    (hw : 1 ≤ content_w) (hw32 : content_w < 2 ^ 32)
    (hh : 1 ≤ content_h) (hh32 : content_h < 2 ^ 32) :
    mul content_w content_h = min ((640 <<< 16) / content_w) ((480 <<< 16) / content_h) ∧
    (mul content_w content_h ≥ (640 <<< 16) / 256 ↔ content_w ≤ 256 ∧ content_h ≤ 192) ∧
    (mul content_w content_h ≥ (640 <<< 16) / 512 ↔ content_w ≤ 512 ∧ content_h ≤ 384) ∧
    (scale_mul vid content_w content_h = 4 ↔
      (vid.scale_integer = true ∨
        vid.softfilter_type = dingux_rs90_softfilter_type.DINGUX_RS90_SOFTFILTER_POINT) ∧
      content_w ≤ 256 ∧ content_h ≤ 192) ∧
    (scale_mul vid content_w content_h = 2 ↔
      (vid.scale_integer = true ∨
        vid.softfilter_type = dingux_rs90_softfilter_type.DINGUX_RS90_SOFTFILTER_POINT) ∧
      ¬ (content_w ≤ 256 ∧ content_h ≤ 192) ∧ content_w ≤ 512 ∧ content_h ≤ 384) ∧
    (scale_mul vid content_w content_h = 1 ↔
      ¬ ((vid.scale_integer = true ∨
          vid.softfilter_type = dingux_rs90_softfilter_type.DINGUX_RS90_SOFTFILTER_POINT) ∧
        content_w ≤ 512 ∧ content_h ≤ 384)) ∧
    (sdl_miyoomini_set_output env vid fb content_w content_h rgb32).1.frame_width
      = content_w * scale_mul vid content_w content_h ∧
    (sdl_miyoomini_set_output env vid fb content_w content_h rgb32).1.frame_height
      = content_h * scale_mul vid content_w content_h ∧
    (sdl_miyoomini_set_output env vid fb content_w content_h rgb32).1.scale_func
      = (if scale_mul vid content_w content_h = 2 then
          (if rgb32 then scale_kernel.scale2x_n32 else scale_kernel.scale2x_n16)
        else if scale_mul vid content_w content_h = 4 then
          (if rgb32 then scale_kernel.scale4x_n32 else scale_kernel.scale4x_n16)
        else
          (if rgb32 then scale_kernel.scale1x_n32 else scale_kernel.scale1x_n16)) := by
  have t4 := mul_ge_thr4_iff content_w content_h hw hh
  have t2 := mul_ge_thr2_iff content_w content_h hw hh
  have hsel : scale_mul vid content_w content_h =
      if vid.scale_integer = true ∨
          vid.softfilter_type = dingux_rs90_softfilter_type.DINGUX_RS90_SOFTFILTER_POINT then
        if content_w ≤ 256 ∧ content_h ≤ 192 then 4
        else if content_w ≤ 512 ∧ content_h ≤ 384 then 2
        else 1
      else 1 := by
    unfold scale_mul
    simp only [t4, t2]
  refine ⟨mul_eq_min content_w content_h, t4, t2, ?_, ?_, ?_, ?_, ?_, ?_⟩
  · rw [hsel]; split_ifs <;> simp_all
  · rw [hsel]; split_ifs <;> simp_all
  · rw [hsel]; split_ifs <;> simp_all
    omega
  · rw [set_output_fst]
    simp only []
    rcases scale_mul_cases vid content_w content_h hw hh with ⟨e, b1, b2⟩ | ⟨e, b1, b2⟩ | e <;>
      rw [e] <;> unfold u32 <;> omega
  · rw [set_output_fst]
    simp only []
    rcases scale_mul_cases vid content_w content_h hw hh with ⟨e, b1, b2⟩ | ⟨e, b1, b2⟩ | e <;>
      rw [e] <;> unfold u32 <;> omega
  · rw [set_output_fst]

/-- Witness for C14: content 256x192 with integer scaling, the largest content
that is pre-scaled by 4. -/
theorem C14_witness :
    (1 ≤ 256 ∧ 256 < 2 ^ 32 ∧ 1 ≤ 192 ∧ 192 < 2 ^ 32) ∧
    (
    mul 256 192 = min ((640 <<< 16) / 256) ((480 <<< 16) / 192) ∧
    (mul 256 192 ≥ (640 <<< 16) / 256 ↔ 256 ≤ 256 ∧ 192 ≤ 192) ∧
    (mul 256 192 ≥ (640 <<< 16) / 512 ↔ 256 ≤ 512 ∧ 192 ≤ 384) ∧
    (scale_mul (vid_init true true) 256 192 = 4 ↔
      ((vid_init true true).scale_integer = true ∨
        (vid_init true true).softfilter_type = dingux_rs90_softfilter_type.DINGUX_RS90_SOFTFILTER_POINT) ∧
      256 ≤ 256 ∧ 192 ≤ 192) ∧
    (scale_mul (vid_init true true) 256 192 = 2 ↔
      ((vid_init true true).scale_integer = true ∨
        (vid_init true true).softfilter_type = dingux_rs90_softfilter_type.DINGUX_RS90_SOFTFILTER_POINT) ∧
      ¬ (256 ≤ 256 ∧ 192 ≤ 192) ∧ 256 ≤ 512 ∧ 192 ≤ 384) ∧
    (scale_mul (vid_init true true) 256 192 = 1 ↔
      ¬ (((vid_init true true).scale_integer = true ∨
          (vid_init true true).softfilter_type = dingux_rs90_softfilter_type.DINGUX_RS90_SOFTFILTER_POINT) ∧
        256 ≤ 512 ∧ 192 ≤ 384)) ∧
    (sdl_miyoomini_set_output env_ok (vid_init true true) fb_ramp 256 192 false).1.frame_width
      = 256 * scale_mul (vid_init true true) 256 192 ∧
    (sdl_miyoomini_set_output env_ok (vid_init true true) fb_ramp 256 192 false).1.frame_height
      = 192 * scale_mul (vid_init true true) 256 192 ∧
    (sdl_miyoomini_set_output env_ok (vid_init true true) fb_ramp 256 192 false).1.scale_func
      = (if scale_mul (vid_init true true) 256 192 = 2 then
          (if false then scale_kernel.scale2x_n32 else scale_kernel.scale2x_n16)
        else if scale_mul (vid_init true true) 256 192 = 4 then
          (if false then scale_kernel.scale4x_n32 else scale_kernel.scale4x_n16)
        else
          (if false then scale_kernel.scale1x_n32 else scale_kernel.scale1x_n16))) :=
  ⟨by decide, C14_multiplier_selection env_ok (vid_init true true) fb_ramp 256 192 false
    (by decide) (by decide) (by decide) (by decide)⟩

/-! ## Policy flags -/

/-- Counterexample to C15 as stated: content 256x224 in integer mode without
keep-aspect has the integer box 512x448 and the rectangle 597x448, wider than
the box. -/
theorem C15_counterexample :
    ((vid_init false true).scale_integer = true ∧ (vid_init false true).keep_aspect = false ∧
      1 ≤ mul_int 256 224) ∧
    ¬ ((sdl_miyoomini_set_output env_ok (vid_init false true) fb_ramp 256 224 false).1.video_w
          ≤ 256 * mul_int 256 224 ∧
       (sdl_miyoomini_set_output env_ok (vid_init false true) fb_ramp 256 224 false).1.video_h
          ≤ 224 * mul_int 256 224) := by
  decide

/-- Claim C15 (amended). In integer mode with `keep_aspect = false`
(`scale_integer = true`, `mul_int ≥ 1`) the 4:3 correction of
`sdl_miyoomini_set_output` only enlarges: `video_w ≥ content_w·mul_int` and
`video_h ≥ content_h·mul_int`, at most one axis differs from the integer-scaled
box (the height is raised to `⌊3·W/4⌋` when the box is wider than 4:3, the
width to `⌊4·H/3⌋` when it is narrower), and the rectangle stays within
640x480. -/
theorem C15_correction_only_enlarges (env : gfx_env) (vid : sdl_miyoomini_video) (fb : Mem)
    (content_w content_h : Nat) (rgb32 : Bool)
    (hm : 1 ≤ mul_int content_w content_h)
    (hs : vid.scale_integer = true) (hk : vid.keep_aspect = false) :
    content_w * mul_int content_w content_h
      ≤ (sdl_miyoomini_set_output env vid fb content_w content_h rgb32).1.video_w ∧
    content_h * mul_int content_w content_h
      ≤ (sdl_miyoomini_set_output env vid fb content_w content_h rgb32).1.video_h ∧
    ((sdl_miyoomini_set_output env vid fb content_w content_h rgb32).1.video_w
        = content_w * mul_int content_w content_h ∨
      (sdl_miyoomini_set_output env vid fb content_w content_h rgb32).1.video_h
        = content_h * mul_int content_w content_h) ∧
    (3 * (content_w * mul_int content_w content_h) > 4 * (content_h * mul_int content_w content_h) →
      (sdl_miyoomini_set_output env vid fb content_w content_h rgb32).1.video_h
        = 3 * (content_w * mul_int content_w content_h) / 4) ∧
    (3 * (content_w * mul_int content_w content_h) < 4 * (content_h * mul_int content_w content_h) →
      (sdl_miyoomini_set_output env vid fb content_w content_h rgb32).1.video_w
        = 4 * (content_h * mul_int content_w content_h) / 3) ∧
    (sdl_miyoomini_set_output env vid fb content_w content_h rgb32).1.video_w ≤ 640 ∧
    (sdl_miyoomini_set_output env vid fb content_w content_h rgb32).1.video_h ≤ 480 := by
  obtain ⟨m1, m2⟩ := mul_int_mul_le content_w content_h
  rw [set_output_fst]
  simp only []
  unfold layout_rect
  rw [if_pos ⟨hs, by omega⟩]
  simp only []
  rw [if_pos hk]
  rw [u32_of_lt (content_w * mul_int content_w content_h) (by omega),
    u32_of_lt (content_h * mul_int content_w content_h) (by omega)]
  generalize content_w * mul_int content_w content_h = a at *
  generalize content_h * mul_int content_w content_h = b at *
  rw [u32_of_lt (a * 3) (by omega), u32_of_lt (b * 4) (by omega)]
  split_ifs <;> simp only [] <;>
    exact ⟨by omega, by omega, by simp,
      fun _ => by omega, fun _ => by omega, by omega, by omega⟩

/-- Witness for C15 (amended): content 256x224. -/
theorem C15_witness :
    (1 ≤ mul_int 256 224 ∧ (vid_init false true).scale_integer = true ∧
      (vid_init false true).keep_aspect = false) ∧
    (256 * mul_int 256 224
      ≤ (sdl_miyoomini_set_output env_ok (vid_init false true) fb_ramp 256 224 false).1.video_w ∧
    224 * mul_int 256 224
      ≤ (sdl_miyoomini_set_output env_ok (vid_init false true) fb_ramp 256 224 false).1.video_h ∧
    ((sdl_miyoomini_set_output env_ok (vid_init false true) fb_ramp 256 224 false).1.video_w
        = 256 * mul_int 256 224 ∨
      (sdl_miyoomini_set_output env_ok (vid_init false true) fb_ramp 256 224 false).1.video_h
        = 224 * mul_int 256 224) ∧
    (3 * (256 * mul_int 256 224) > 4 * (224 * mul_int 256 224) →
      (sdl_miyoomini_set_output env_ok (vid_init false true) fb_ramp 256 224 false).1.video_h
        = 3 * (256 * mul_int 256 224) / 4) ∧
    (3 * (256 * mul_int 256 224) < 4 * (224 * mul_int 256 224) →
      (sdl_miyoomini_set_output env_ok (vid_init false true) fb_ramp 256 224 false).1.video_w
        = 4 * (224 * mul_int 256 224) / 3) ∧
    (sdl_miyoomini_set_output env_ok (vid_init false true) fb_ramp 256 224 false).1.video_w ≤ 640 ∧
    (sdl_miyoomini_set_output env_ok (vid_init false true) fb_ramp 256 224 false).1.video_h ≤ 480) :=
  ⟨by decide, C15_correction_only_enlarges env_ok (vid_init false true) fb_ramp 256 224 false
    (by decide) rfl rfl⟩

theorem le_mul_int_iff (w h k : Nat) (hw : 1 ≤ w) (hh : 1 ≤ h) :
    k ≤ mul_int w h ↔ k * w ≤ 640 ∧ k * h ≤ 480 := by
  rw [mul_int_eq, Nat.le_min, Nat.le_div_iff_mul_le (by omega), Nat.le_div_iff_mul_le (by omega)]

/-- Claim C16. The 16.16 fixed-point derivation is exact for integer fits: for
`content_w, content_h ≥ 1`, `mul_int` equals
`min(⌊640/content_w⌋, ⌊480/content_h⌋)`, the largest `k` with
`k·content_w ≤ 640` and `k·content_h ≤ 480`; and in integer mode with
`keep_aspect = true` (`mul_int ≥ 1`) `sdl_miyoomini_set_output` yields
`video_w = content_w·mul_int`, `video_h = content_h·mul_int`,
`video_x = ⌊(640 − video_w)/2⌋`, `video_y = ⌊(480 − video_h)/2⌋`, so that the
left/right and the top/bottom margins differ by at most one pixel. -/
theorem C16_integer_fit_exact (env : gfx_env) (vid : sdl_miyoomini_video) (fb : Mem)
    (content_w content_h : Nat) (rgb32 : Bool)
    (hw : 1 ≤ content_w) (hh : 1 ≤ content_h) :
    mul_int content_w content_h = (min (xmul content_w) (ymul content_h)) >>> 16 ∧
    mul_int content_w content_h = min (640 / content_w) (480 / content_h) ∧
    (∀ k, (k * content_w ≤ 640 ∧ k * content_h ≤ 480) ↔ k ≤ mul_int content_w content_h) ∧
    (vid.scale_integer = true → vid.keep_aspect = true → 1 ≤ mul_int content_w content_h →
      (sdl_miyoomini_set_output env vid fb content_w content_h rgb32).1.video_w
        = content_w * mul_int content_w content_h ∧
      (sdl_miyoomini_set_output env vid fb content_w content_h rgb32).1.video_h
        = content_h * mul_int content_w content_h ∧
      (sdl_miyoomini_set_output env vid fb content_w content_h rgb32).1.video_x
        = (640 - (sdl_miyoomini_set_output env vid fb content_w content_h rgb32).1.video_w) / 2 ∧
      (sdl_miyoomini_set_output env vid fb content_w content_h rgb32).1.video_y
        = (480 - (sdl_miyoomini_set_output env vid fb content_w content_h rgb32).1.video_h) / 2 ∧
      (sdl_miyoomini_set_output env vid fb content_w content_h rgb32).1.video_x
        ≤ 640 - ((sdl_miyoomini_set_output env vid fb content_w content_h rgb32).1.video_x
            + (sdl_miyoomini_set_output env vid fb content_w content_h rgb32).1.video_w) ∧
      640 - ((sdl_miyoomini_set_output env vid fb content_w content_h rgb32).1.video_x
            + (sdl_miyoomini_set_output env vid fb content_w content_h rgb32).1.video_w)
        ≤ (sdl_miyoomini_set_output env vid fb content_w content_h rgb32).1.video_x + 1 ∧
      (sdl_miyoomini_set_output env vid fb content_w content_h rgb32).1.video_y
        ≤ 480 - ((sdl_miyoomini_set_output env vid fb content_w content_h rgb32).1.video_y
            + (sdl_miyoomini_set_output env vid fb content_w content_h rgb32).1.video_h) ∧
      480 - ((sdl_miyoomini_set_output env vid fb content_w content_h rgb32).1.video_y
            + (sdl_miyoomini_set_output env vid fb content_w content_h rgb32).1.video_h)
        ≤ (sdl_miyoomini_set_output env vid fb content_w content_h rgb32).1.video_y + 1) := by
  refine ⟨?_, mul_int_eq content_w content_h,
    fun k => (le_mul_int_iff content_w content_h k hw hh).symm, fun hs hk hm => ?_⟩
  · unfold mul_int mul
    congr 1
    split_ifs <;> omega
  · obtain ⟨m1, m2⟩ := mul_int_mul_le content_w content_h
    have hk2 : ¬ vid.keep_aspect = false := by simp [hk]
    rw [set_output_fst]
    simp only []
    unfold layout_rect
    rw [if_pos ⟨hs, by omega⟩]
    simp only []
    rw [if_neg hk2]
    rw [u32_of_lt (content_w * mul_int content_w content_h) (by omega),
      u32_of_lt (content_h * mul_int content_w content_h) (by omega)]
    generalize content_w * mul_int content_w content_h = a at *
    generalize content_h * mul_int content_w content_h = b at *
    simp only [sub32, Nat.shiftRight_eq_div_pow, Nat.reducePow]
    refine ⟨trivial, trivial, ?_, ?_, ?_, ?_, ?_, ?_⟩ <;> omega

/-- Witness for C16: content 256x224, integer scaling with keep-aspect. -/
theorem C16_witness :
    (1 ≤ 256 ∧ 1 ≤ 224) ∧
    (
    mul_int 256 224 = (min (xmul 256) (ymul 224)) >>> 16 ∧
    mul_int 256 224 = min (640 / 256) (480 / 224) ∧
    (∀ k, (k * 256 ≤ 640 ∧ k * 224 ≤ 480) ↔ k ≤ mul_int 256 224) ∧
    ((vid_init true true).scale_integer = true → (vid_init true true).keep_aspect = true → 1 ≤ mul_int 256 224 →
      (sdl_miyoomini_set_output env_ok (vid_init true true) fb_ramp 256 224 false).1.video_w
        = 256 * mul_int 256 224 ∧
      (sdl_miyoomini_set_output env_ok (vid_init true true) fb_ramp 256 224 false).1.video_h
        = 224 * mul_int 256 224 ∧
      (sdl_miyoomini_set_output env_ok (vid_init true true) fb_ramp 256 224 false).1.video_x
        = (640 - (sdl_miyoomini_set_output env_ok (vid_init true true) fb_ramp 256 224 false).1.video_w) / 2 ∧
      (sdl_miyoomini_set_output env_ok (vid_init true true) fb_ramp 256 224 false).1.video_y
        = (480 - (sdl_miyoomini_set_output env_ok (vid_init true true) fb_ramp 256 224 false).1.video_h) / 2 ∧
      (sdl_miyoomini_set_output env_ok (vid_init true true) fb_ramp 256 224 false).1.video_x
        ≤ 640 - ((sdl_miyoomini_set_output env_ok (vid_init true true) fb_ramp 256 224 false).1.video_x
            + (sdl_miyoomini_set_output env_ok (vid_init true true) fb_ramp 256 224 false).1.video_w) ∧
      640 - ((sdl_miyoomini_set_output env_ok (vid_init true true) fb_ramp 256 224 false).1.video_x
            + (sdl_miyoomini_set_output env_ok (vid_init true true) fb_ramp 256 224 false).1.video_w)
        ≤ (sdl_miyoomini_set_output env_ok (vid_init true true) fb_ramp 256 224 false).1.video_x + 1 ∧
      (sdl_miyoomini_set_output env_ok (vid_init true true) fb_ramp 256 224 false).1.video_y
        ≤ 480 - ((sdl_miyoomini_set_output env_ok (vid_init true true) fb_ramp 256 224 false).1.video_y
            + (sdl_miyoomini_set_output env_ok (vid_init true true) fb_ramp 256 224 false).1.video_h) ∧
      480 - ((sdl_miyoomini_set_output env_ok (vid_init true true) fb_ramp 256 224 false).1.video_y
            + (sdl_miyoomini_set_output env_ok (vid_init true true) fb_ramp 256 224 false).1.video_h)
        ≤ (sdl_miyoomini_set_output env_ok (vid_init true true) fb_ramp 256 224 false).1.video_y + 1)) :=
  ⟨by decide, C16_integer_fit_exact env_ok (vid_init true true) fb_ramp 256 224 false
    (by decide) (by decide)⟩

/-! ## Idempotence -/

theorem scale_mul_eq_one_of_mul_int_zero (vid : sdl_miyoomini_video) (w h : Nat)
    (hz : mul_int w h = 0) : scale_mul vid w h = 1 := by
  have hlt : mul w h < 65536 := by
    unfold mul_int at hz
    rw [Nat.shiftRight_eq_div_pow] at hz
    have := (Nat.div_eq_zero_iff (by norm_num : 0 < 2 ^ 16)).1 hz
    omega
  unfold scale_mul
  rw [thr4, thr2]
  split_ifs <;> omega

/-- Claim C17. The layout written by `sdl_miyoomini_set_output` is idempotent:
for every initial state, `width, height ≥ 1` and `rgb32`, a second call with
the same arguments leaves `content_width/height`, `frame_width/height`,
`video_x/y/w/h`, the selected kernel and all policy flags as the first call
left them, also when the first call cleared `scale_integer` (`mul_int = 0`),
and whatever the surface allocator returns in the two calls. -/
theorem C17_set_output_idempotent (env env2 : gfx_env) (vid : sdl_miyoomini_video)
    (fb fb2 : Mem) (width height : Nat) (rgb32 : Bool) (_hw : 1 ≤ width) (_hh : 1 ≤ height) :
    (sdl_miyoomini_set_output env2 (sdl_miyoomini_set_output env vid fb width height rgb32).1
        fb2 width height rgb32).1 =
      { (sdl_miyoomini_set_output env vid fb width height rgb32).1 with
        screen := (sdl_miyoomini_set_output env2
          (sdl_miyoomini_set_output env vid fb width height rgb32).1
          fb2 width height rgb32).1.screen } ∧
    (env2.GFX_CreateRGBSurface = env.GFX_CreateRGBSurface →
      (sdl_miyoomini_set_output env2 (sdl_miyoomini_set_output env vid fb width height rgb32).1
        fb2 width height rgb32).1 = (sdl_miyoomini_set_output env vid fb width height rgb32).1) := by
  have key : ∀ e : gfx_env,
      scale_mul (sdl_miyoomini_set_output e vid fb width height rgb32).1 width height
        = scale_mul vid width height ∧
      layout_rect (sdl_miyoomini_set_output e vid fb width height rgb32).1 width height
        = layout_rect vid width height := by
    intro e
    rw [set_output_fst]
    by_cases hmz : mul_int width height = 0
    · refine ⟨?_, ?_⟩
      · rw [scale_mul_eq_one_of_mul_int_zero _ _ _ hmz, scale_mul_eq_one_of_mul_int_zero _ _ _ hmz]
      · unfold layout_rect
        simp only [hmz, and_true, ne_eq, not_true_eq_false, and_false, if_false]
    · refine ⟨?_, ?_⟩
      · unfold scale_mul
        simp only [hmz, and_false, if_false]
      · unfold layout_rect
        simp only [hmz, and_false, if_false]
  obtain ⟨k1, k2⟩ := key env
  have hsi : (if ((sdl_miyoomini_set_output env vid fb width height rgb32).1.scale_integer = true
        ∧ mul_int width height = 0) then false
      else (sdl_miyoomini_set_output env vid fb width height rgb32).1.scale_integer)
      = (sdl_miyoomini_set_output env vid fb width height rgb32).1.scale_integer := by
    rw [set_output_fst]
    simp only []
    by_cases hmz : mul_int width height = 0 <;> cases vid.scale_integer <;> simp [hmz]
  have main : ∀ e2 : gfx_env,
      (sdl_miyoomini_set_output e2 (sdl_miyoomini_set_output env vid fb width height rgb32).1
        fb2 width height rgb32).1 =
      { (sdl_miyoomini_set_output env vid fb width height rgb32).1 with
        screen := e2.GFX_CreateRGBSurface (u32 (width * scale_mul vid width height))
          (u32 (height * scale_mul vid width height)) (if rgb32 then 32 else 16) } := by
    intro e2
    rw [set_output_fst e2, k1, k2, hsi]
    rw [set_output_fst env]
  refine ⟨?_, fun he => ?_⟩
  · rw [main env2]
  · rw [main env2, he]
    rw [set_output_fst env]

/-- Witness for C17: content 800x600 with integer scaling requested, so that the
first call clears `scale_integer`; the second call has a failing allocator. -/
theorem C17_witness :
    (1 ≤ 800 ∧ 1 ≤ 600) ∧
    (
    (sdl_miyoomini_set_output env_fail
        (sdl_miyoomini_set_output env_ok (vid_init true true) fb_ramp 800 600 false).1
        dst_zero 800 600 false).1 =
      { (sdl_miyoomini_set_output env_ok (vid_init true true) fb_ramp 800 600 false).1 with
        screen := (sdl_miyoomini_set_output env_fail
          (sdl_miyoomini_set_output env_ok (vid_init true true) fb_ramp 800 600 false).1
          dst_zero 800 600 false).1.screen } ∧
    (env_fail.GFX_CreateRGBSurface = env_ok.GFX_CreateRGBSurface →
      (sdl_miyoomini_set_output env_fail
        (sdl_miyoomini_set_output env_ok (vid_init true true) fb_ramp 800 600 false).1
        dst_zero 800 600 false).1
        = (sdl_miyoomini_set_output env_ok (vid_init true true) fb_ramp 800 600 false).1)) :=
  ⟨by decide, C17_set_output_idempotent env_ok env_fail (vid_init true true) fb_ramp dst_zero
    800 600 false (by decide) (by decide)⟩

/-! ## The filter plugin -/

/-- Counterexample to C12 as stated: with the format constants taken as
`RGB565 = 1`, `XRGB8888 = 2`, the format `4` is neither, and
`lcd2x_generic_create` still returns an instance, on which
`lcd2x_generic_packets` leaves `packets[0].work` as it was. -/
theorem C12_counterexample :
    (4 ≠ 2 ∧ 4 ≠ 1 ∧ 4 &&& lcd2x_generic_input_fmts 2 1 = 0) ∧
    ¬ (lcd2x_generic_create true true 4 4 640 480 1 = none) ∧
    (lcd2x_generic_packets 2 1 ⟨1, ⟨0, 0, 0, 0, 0, 0, 0, 0, 0⟩, 4⟩ ⟨none, none⟩
        0 2560 0 320 240 640).2.work = none := by
  decide

/-- Claim C12 (amended). The plugin only declares its formats:
`lcd2x_generic_input_fmts` returns `XRGB8888 | RGB565`, while
`lcd2x_generic_create` does not look at `in_fmt`: it returns `NULL` exactly when
one of its two allocations fails and otherwise an instance with `threads = 1`
that records `in_fmt`, whatever the format.  `lcd2x_generic_packets` assigns
`packets[0].work` exactly when the recorded format is one of the two declared
ones and leaves it as it was otherwise. -/
theorem C12_create_does_not_check_format (SOFTFILTER_FMT_XRGB8888 SOFTFILTER_FMT_RGB565 : Nat)
    (calloc_filt calloc_workers : Bool) (in_fmt out_fmt max_width max_height threads : Nat)
    (filt : filter_data) (packet0 : softfilter_work_packet)
    (output output_stride input width height input_stride : Nat) :
    lcd2x_generic_input_fmts SOFTFILTER_FMT_XRGB8888 SOFTFILTER_FMT_RGB565
      = SOFTFILTER_FMT_XRGB8888 ||| SOFTFILTER_FMT_RGB565 ∧
    (lcd2x_generic_create calloc_filt calloc_workers in_fmt out_fmt max_width max_height threads
        = none ↔ (calloc_filt = false ∨ calloc_workers = false)) ∧
    (calloc_filt = true → calloc_workers = true →
      lcd2x_generic_create calloc_filt calloc_workers in_fmt out_fmt max_width max_height threads
        = some { threads := 1, workers := ⟨0, 0, 0, 0, 0, 0, 0, 0, 0⟩, in_fmt := in_fmt }) ∧
    (lcd2x_generic_packets SOFTFILTER_FMT_XRGB8888 SOFTFILTER_FMT_RGB565 filt packet0
        output output_stride input width height input_stride).2.work
      = (if filt.in_fmt = SOFTFILTER_FMT_XRGB8888 then some lcd2x_work.lcd2x_work_cb_xrgb8888
         else if filt.in_fmt = SOFTFILTER_FMT_RGB565 then some lcd2x_work.lcd2x_work_cb_rgb565
         else packet0.work) ∧
    (filt.in_fmt ≠ SOFTFILTER_FMT_XRGB8888 → filt.in_fmt ≠ SOFTFILTER_FMT_RGB565 →
      (lcd2x_generic_packets SOFTFILTER_FMT_XRGB8888 SOFTFILTER_FMT_RGB565 filt packet0
        output output_stride input width height input_stride).2.work = packet0.work) := by
  refine ⟨rfl, ?_, ?_, rfl, fun h1 h2 => ?_⟩
  · unfold lcd2x_generic_create
    cases calloc_filt <;> cases calloc_workers <;> simp
  · intro h1 h2
    subst h1 h2
    rfl
  · unfold lcd2x_generic_packets
    simp only [if_neg h1, if_neg h2]

/-- Witness for C12 (amended): format `4` with both allocations succeeding. -/
theorem C12_witness :
    lcd2x_generic_input_fmts 2 1 = 2 ||| 1 ∧
    (lcd2x_generic_create true true 4 4 640 480 1 = none ↔ (true = false ∨ true = false)) ∧
    (true = true → true = true →
      lcd2x_generic_create true true 4 4 640 480 1
        = some { threads := 1, workers := ⟨0, 0, 0, 0, 0, 0, 0, 0, 0⟩, in_fmt := 4 }) ∧
    (lcd2x_generic_packets 2 1 (⟨1, ⟨0, 0, 0, 0, 0, 0, 0, 0, 0⟩, 4⟩ : filter_data)
        (⟨none, none⟩ : softfilter_work_packet) 0 2560 0 320 240 640).2.work
      = (if (⟨1, ⟨0, 0, 0, 0, 0, 0, 0, 0, 0⟩, 4⟩ : filter_data).in_fmt = 2 then
          some lcd2x_work.lcd2x_work_cb_xrgb8888
         else if (⟨1, ⟨0, 0, 0, 0, 0, 0, 0, 0, 0⟩, 4⟩ : filter_data).in_fmt = 1 then
          some lcd2x_work.lcd2x_work_cb_rgb565
         else (⟨none, none⟩ : softfilter_work_packet).work) ∧
    ((⟨1, ⟨0, 0, 0, 0, 0, 0, 0, 0, 0⟩, 4⟩ : filter_data).in_fmt ≠ 2 →
      (⟨1, ⟨0, 0, 0, 0, 0, 0, 0, 0, 0⟩, 4⟩ : filter_data).in_fmt ≠ 1 →
      (lcd2x_generic_packets 2 1 (⟨1, ⟨0, 0, 0, 0, 0, 0, 0, 0, 0⟩, 4⟩ : filter_data)
        (⟨none, none⟩ : softfilter_work_packet) 0 2560 0 320 240 640).2.work
        = (⟨none, none⟩ : softfilter_work_packet).work) :=
  C12_create_does_not_check_format 2 1 true true 4 4 640 480 1
    ⟨1, ⟨0, 0, 0, 0, 0, 0, 0, 0, 0⟩, 4⟩ ⟨none, none⟩ 0 2560 0 320 240 640

end MiyooMini
